import Mathlib

/-!
# Grubdash: dishes and orders controllers

A shallow embedding of `src/dishes/dishes.controller.js` and
`src/orders/orders.controller.js`.

* A request body is a parsed JSON value (`JsVal`).  Reading a property of
  `undefined` or `null` raises a `TypeError`; such a read is `none`.
* A middleware either calls `next()`, calls `next({status, message})`,
  answers the request, or throws.  A chain is the list of middlewares that
  `module.exports` declares, run from left to right.
* The two collections are lists of records.  An object held in
  `res.locals` is a reference to a record of the collection; it is modelled
  by the position of that record.
-/

namespace Grubdash

/-! ## JavaScript values -/

/-- A value obtained from parsed JSON, plus `undefined` for an absent property.
Numbers are rationals: every finite double is one. -/
inductive JsVal where
  | undefined
  | null
  | bool (b : Bool)
  | num (q : ℚ)
  | str (s : String)
  | arr (items : List JsVal)
  | obj (fields : List (String × JsVal))

namespace JsVal

/-- Truthiness of a value (`if (v)`, `!v`, `v && ...`). -/
def truthy : JsVal → Bool
  | undefined => false
  | null => false
  | bool b => b
  | num q => decide (q ≠ 0)
  | str s => decide (s ≠ "")
  | arr _ => true
  | obj _ => true

/-- Length of a string in UTF-16 code units, as `s.length` reports it. -/
def utf16Length (s : String) : Nat :=
  (s.data.map fun c => if c.toNat < 65536 then 1 else 2).sum

/-- Property read `v[k]` (or `v.k`, or destructuring `{ k } = v`), for the
property names the controllers use: `data`, the field names of the two
resources, `quantity` and `length`.  `none` is the `TypeError` raised on
`undefined` and `null`. -/
def getProp (v : JsVal) (k : String) : Option JsVal :=
  match v with
  | undefined => none
  | null => none
  | bool _ => some undefined
  | num _ => some undefined
  | str s => if k = "length" then some (num (utf16Length s)) else some undefined
  | arr items => if k = "length" then some (num items.length) else some undefined
  | obj fields => some ((fields.lookup k).getD undefined)

/-- The test `Array.isArray(v)`. -/
def isArray : JsVal → Bool
  | arr _ => true
  | _ => false

/-- The test `Number.isInteger(v)`. -/
def isInteger : JsVal → Bool
  | num q => decide (q.den = 1)
  | _ => false

/-- The test `v === s` against a string `s`. -/
def strictEqStr (v : JsVal) (s : String) : Bool :=
  match v with
  | str t => decide (t = s)
  | _ => false

end JsVal

open JsVal

/-- The binding `const { data = {} } = req.body`: the default applies when
`data` is `undefined`, not when it is `null`. -/
def bodyData (body : JsVal) : Option JsVal :=
  match getProp body "data" with
  | none => none
  | some .undefined => some (.obj [])
  | some d => some d

/-- The binding `const { data: { k } = {} } = req.body`. -/
def bodyField (body : JsVal) (k : String) : Option JsVal :=
  match bodyData body with
  | none => none
  | some d => getProp d k

mutual
/-- Whether converting `v` to a primitive (`ToPrimitive`, as `v <= 0` and a
template literal do) throws a `TypeError`.  An object parsed from JSON throws
exactly when it has an own `toString` property: that property is never
callable, and the inherited `valueOf` returns the object itself; without it
`Object.prototype.toString` answers.  An array converts through `join`, which
converts every item in turn. -/
def toPrimitiveThrows : JsVal → Bool
  | .obj fields => (fields.lookup "toString").isSome
  | .arr items => itemsToPrimitiveThrow items
  | _ => false
/-- Whether `join` throws on the items of an array: it does when one of the
items does (`undefined` and `null` items are not converted). -/
def itemsToPrimitiveThrow : List JsVal → Bool
  | [] => false
  | v :: rest => toPrimitiveThrows v || itemsToPrimitiveThrow rest
end

mutual
/-- The string `String(v)` of a value whose conversion does not throw.  The
rendering of a number is ECMAScript's `Number::toString`, taken as the
parameter `numberToString`. -/
def renderString (numberToString : ℚ → String) : JsVal → String
  | .undefined => "undefined"
  | .null => "null"
  | .bool b => if b then "true" else "false"
  | .num q => numberToString q
  | .str s => s
  | .arr items => ",".intercalate (renderItems numberToString items)
  | .obj _ => "[object Object]"
/-- The renderings of the items of an array, which `join` then separates by
commas; `undefined` and `null` items render as the empty string. -/
def renderItems (numberToString : ℚ → String) : List JsVal → List String
  | [] => []
  | .undefined :: rest => "" :: renderItems numberToString rest
  | .null :: rest => "" :: renderItems numberToString rest
  | v :: rest => renderString numberToString v :: renderItems numberToString rest
end

/-- The conversion `String(v)` that a template literal applies to `v`:
`none` is the `TypeError` raised when `v` cannot be converted to a
primitive. -/
def templateString (numberToString : ℚ → String) (v : JsVal) : Option String :=
  if toPrimitiveThrows v then none else some (renderString numberToString v)

/-! ## Requests, middlewares and chains -/

/-- What a handler reads from outside the collection: `req.body`, the route
parameter (`req.params.dishId` or `req.params.orderId`), the value that
`nextId()` returns when this request calls it, and the number rendering of
the runtime. -/
structure Request where
  body : JsVal
  param : String
  nextId : String
  numberToString : ℚ → String

/-- The body of a success response: `{ data: [...] }`, `{ data: record }`,
or nothing (`sendStatus`, or `data` undefined). -/
inductive Body (ρ : Type) where
  | list (records : List ρ)
  | record (r : ρ)
  | empty

/-- What one middleware does with the collection `coll`:
`next` is `next()`, with the reference now held in `res.locals`;
`error` is `next({ status, message })`;
`respond` is a response sent with `res.json` or `res.sendStatus`;
`throw` is an exception raised while the middleware runs.
Each carries the collection as the middleware leaves it. -/
inductive Step (ρ : Type) where
  | next (locals : Option Nat) (coll : List ρ)
  | error (status : Nat) (message : String) (coll : List ρ)
  | respond (status : Nat) (body : Body ρ) (coll : List ρ)
  | throw (coll : List ρ)

/-- The collection a step leaves behind. -/
def Step.coll {ρ : Type} : Step ρ → List ρ
  | Step.next _ c => c
  | Step.error _ _ c => c
  | Step.respond _ _ c => c
  | Step.throw c => c

/-- A middleware `(req, res, next) => ...`; `locals` is `res.locals`. -/
abbrev Middleware (ρ : Type) := Request → Option Nat → List ρ → Step ρ

/-- Runs a chain as Express does: each middleware in declaration order, the
next one only after `next()`; an error, a response or an exception ends the
chain.  A chain whose last middleware calls `next()` ends in `next`. -/
def runChain {ρ : Type} (chain : List (Middleware ρ)) (req : Request)
    (locals : Option Nat) (coll : List ρ) : Step ρ :=
  match chain with
  | [] => Step.next locals coll
  | m :: rest =>
    match m req locals coll with
    | Step.next locals1 coll1 => runChain rest req locals1 coll1
    | other => other

/-- Index of the first element satisfying `p` (`Array.prototype.findIndex`
with a pure callback; `none` is `-1`).  `find` returns the element at that
index, or `undefined`. -/
def findIndex {α : Type} (p : α → Bool) : List α → Option Nat
  | [] => none
  | a :: rest => if p a then some 0 else (findIndex p rest).map (· + 1)

/-- Assignment through a reference: replaces the record at position `i` by
its image under `f`. -/
def modifyAt {α : Type} (f : α → α) : Nat → List α → List α
  | _, [] => []
  | 0, a :: rest => f a :: rest
  | i + 1, a :: rest => a :: modifyAt f i rest

/-- The method `findIndex` with a callback that can throw: `none` when the
callback throws before an element satisfies it, `some none` for `-1`. -/
def findIndexThrowing {α : Type} (p : α → Option Bool) : List α → Option (Option Nat)
  | [] => some none
  | a :: rest =>
    match p a with
    | none => none
    | some true => some (some 0)
    | some false => (findIndexThrowing p rest).map (fun r => r.map (· + 1))

/-! ## Orders (`src/orders/orders.controller.js`) -/

/-- An order of the `orders` array. -/
structure Order where
  id : String
  deliverTo : JsVal
  mobileNumber : JsVal
  status : JsVal
  dishes : JsVal

namespace Orders

/-- List all orders. -/
def list : Middleware Order := fun _ _ orders =>
  Step.respond 200 (Body.list orders) orders

/-- Verify that the data has a particular property. -/
def bodyDataHas (propertyName : String) : Middleware Order := fun req locals orders =>
  match bodyField req.body propertyName with
  | none => Step.throw orders
  | some v =>
    if v.truthy then Step.next locals orders
    else Step.error 400 ("Order must include a " ++ propertyName) orders

/-- Verify that the `deliverTo` property is valid: `if (deliverTo.length)`. -/
def deliverToIsValid : Middleware Order := fun req locals orders =>
  match bodyField req.body "deliverTo" with
  | none => Step.throw orders
  | some deliverTo =>
    match getProp deliverTo "length" with
    | none => Step.throw orders
    | some len =>
      if len.truthy then Step.next locals orders
      else Step.error 400 "Order must include a deliverTo" orders

/-- Verify that the `mobileNumber` property is valid: `if (mobileNumber.length)`. -/
def mobileNumberIsValid : Middleware Order := fun req locals orders =>
  match bodyField req.body "mobileNumber" with
  | none => Step.throw orders
  | some mobileNumber =>
    match getProp mobileNumber "length" with
    | none => Step.throw orders
    | some len =>
      if len.truthy then Step.next locals orders
      else Step.error 400 "Order must include a mobileNumber" orders

/-- The comparison `quantity <= 0`, which `dishesIsValid` reaches only for a
`quantity` that `Number.isInteger` accepts, hence a number. -/
def quantityLeZero : JsVal → Bool
  | .num q => decide (q ≤ 0)
  | _ => false

/-- The callback of `dishesIsValid`:
`!dish.quantity || !Number.isInteger(dish.quantity) || dish.quantity <= 0`.
Reading `quantity` of a `null` item throws. -/
def invalidQuantity (dish : JsVal) : Option Bool :=
  match getProp dish "quantity" with
  | none => none
  | some quantity =>
    some (!quantity.truthy || !quantity.isInteger || quantityLeZero quantity)

/-- Verify that the `dishes` property is valid. -/
def dishesIsValid : Middleware Order := fun req locals orders =>
  match bodyField req.body "dishes" with
  | none => Step.throw orders
  | some dishes =>
    match dishes with
    | .arr items =>
      if (JsVal.num items.length).truthy then
        match findIndexThrowing invalidQuantity items with
        | none => Step.throw orders
        | some (some invalidQuantityDish) =>
          Step.error 400
            ("Dish " ++ toString invalidQuantityDish ++
              " must have a quantity that is an integer greater than 0") orders
        | some none => Step.next locals orders
      else Step.error 400 "Order must include at least one dish" orders
    | _ => Step.error 400 "Order must include at least one dish" orders

/-- Verify that the `status` property is valid. -/
def statusIsValid : Middleware Order := fun req locals orders =>
  match bodyField req.body "status" with
  | none => Step.throw orders
  | some status =>
    if status.strictEqStr "pending" || status.strictEqStr "preparing" ||
        status.strictEqStr "out-for-delivery" || status.strictEqStr "delivered" then
      Step.next locals orders
    else
      Step.error 400
        "Order must have a status of pending, preparing, out-for-delivery, delivered" orders

/-- Create a new order. -/
def create : Middleware Order := fun req _ orders =>
  match bodyField req.body "deliverTo", bodyField req.body "mobileNumber",
      bodyField req.body "status", bodyField req.body "dishes" with
  | some deliverTo, some mobileNumber, some status, some dishes =>
    let newOrder : Order :=
      { id := req.nextId, deliverTo := deliverTo, mobileNumber := mobileNumber,
        status := status, dishes := dishes }
    Step.respond 201 (Body.record newOrder) (orders ++ [newOrder])
  | _, _, _, _ => Step.throw orders

/-- Verify that the order exists; the order found is kept in `res.locals`. -/
def orderExists : Middleware Order := fun req _ orders =>
  match findIndex (fun order => decide (order.id = req.param)) orders with
  | some foundOrder => Step.next (some foundOrder) orders
  | none => Step.error 404 ("Order id not found: " ++ req.param) orders

/-- Read a specific order: `res.json({ data: res.locals.order })`. -/
def read : Middleware Order := fun _ locals orders =>
  match locals.bind (fun i => orders.get? i) with
  | some order => Step.respond 200 (Body.record order) orders
  | none => Step.respond 200 Body.empty orders

/-- Update a specific order. -/
def update : Middleware Order := fun req locals orders =>
  match bodyField req.body "id", bodyField req.body "deliverTo",
      bodyField req.body "mobileNumber", bodyField req.body "status",
      bodyField req.body "dishes" with
  | some id, some deliverTo, some mobileNumber, some status, some dishes =>
    if id.truthy && !id.strictEqStr req.param then
      match templateString req.numberToString id with
      | none => Step.throw orders
      | some rendered =>
        Step.error 400
          ("Order id does not match route id. Dish: " ++ rendered ++
            ", Route: " ++ req.param) orders
    else if status.strictEqStr "delivered" then
      Step.error 400 "A delivered order cannot be changed" orders
    else
      match locals with
      | none => Step.throw orders
      | some i =>
        match orders.get? i with
        | none => Step.throw orders
        | some order =>
          let updated : Order :=
            { order with deliverTo := deliverTo, mobileNumber := mobileNumber,
                         status := status, dishes := dishes }
          Step.respond 200 (Body.record updated) (modifyAt (fun _ => updated) i orders)
  | _, _, _, _, _ => Step.throw orders

/-- The call `orders.findIndex((order) => (order.id = orderId))` of
`destroy`: the callback assigns `orderId` to the `id` of each order it
visits and returns the assigned value, so the search stops at the first
order when `orderId` is truthy and runs to the end otherwise.  Returns the
collection after the assignments and the index (`none` is `-1`). -/
def destroyFindIndex (orderId : String) : List Order → List Order × Option Nat
  | [] => ([], none)
  | order :: rest =>
    let assigned : Order := { order with id := orderId }
    if (JsVal.str orderId).truthy then (assigned :: rest, some 0)
    else
      match destroyFindIndex orderId rest with
      | (rest1, index) => (assigned :: rest1, index.map (· + 1))

/-- Delete an existing order. -/
def destroy : Middleware Order := fun req _ orders =>
  match destroyFindIndex req.param orders with
  | (orders1, none) => Step.throw orders1
  | (orders1, some index) =>
    match orders1.get? index with
    | none => Step.throw orders1
    | some order =>
      if order.status.strictEqStr "pending" then
        Step.respond 204 Body.empty (orders1.eraseIdx index)
      else
        Step.error 400 "An order cannot be deleted unless it is pending" orders1

/-- The chain `module.exports.create`. -/
def createChain : List (Middleware Order) :=
  [bodyDataHas "deliverTo", bodyDataHas "mobileNumber", bodyDataHas "dishes",
   deliverToIsValid, mobileNumberIsValid, dishesIsValid, create]

/-- The chain `module.exports.read`. -/
def readChain : List (Middleware Order) := [orderExists, read]

/-- The chain `module.exports.update`. -/
def updateChain : List (Middleware Order) :=
  [orderExists, bodyDataHas "deliverTo", bodyDataHas "mobileNumber",
   bodyDataHas "status", bodyDataHas "dishes", deliverToIsValid,
   mobileNumberIsValid, dishesIsValid, statusIsValid, update]

/-- The chain `module.exports.delete`. -/
def deleteChain : List (Middleware Order) := [orderExists, destroy]

end Orders

/-! ## Dishes (`src/dishes/dishes.controller.js`) -/

/-- A dish of the `dishes` array. -/
structure Dish where
  id : String
  name : JsVal
  description : JsVal
  price : JsVal
  image_url : JsVal

namespace Dishes

/-- List all dishes. -/
def list : Middleware Dish := fun _ _ dishes =>
  Step.respond 200 (Body.list dishes) dishes

/-- Verify that the data has a particular property. -/
def bodyDataHas (propertyName : String) : Middleware Dish := fun req locals dishes =>
  match bodyField req.body propertyName with
  | none => Step.throw dishes
  | some v =>
    if v.truthy then Step.next locals dishes
    else Step.error 400 ("Dish must include a " ++ propertyName) dishes

/-- Verify that the `name` property is valid: `if (name.length)`. -/
def namePropertyIsValid : Middleware Dish := fun req locals dishes =>
  match bodyField req.body "name" with
  | none => Step.throw dishes
  | some name =>
    match getProp name "length" with
    | none => Step.throw dishes
    | some len =>
      if len.truthy then Step.next locals dishes
      else Step.error 400 "Dish must include a name" dishes

/-- Verify that the `description` property is valid: `if (description.length)`. -/
def descriptionPropertyIsValid : Middleware Dish := fun req locals dishes =>
  match bodyField req.body "description" with
  | none => Step.throw dishes
  | some description =>
    match getProp description "length" with
    | none => Step.throw dishes
    | some len =>
      if len.truthy then Step.next locals dishes
      else Step.error 400 "Dish must include a description" dishes

/-- Verify that the `image_url` property is valid: `if (image_url.length)`. -/
def imageUrlPropertyIsValid : Middleware Dish := fun req locals dishes =>
  match bodyField req.body "image_url" with
  | none => Step.throw dishes
  | some image_url =>
    match getProp image_url "length" with
    | none => Step.throw dishes
    | some len =>
      if len.truthy then Step.next locals dishes
      else Step.error 400 "Dish must include a image_url" dishes

/-- The test `price <= 0 || !Number.isInteger(price)`; `none` is a
`TypeError`.  On a number it is the comparison and the integrality test.  On
any other value the comparison `price <= 0` runs first and converts `price`
to a primitive, which throws when `toPrimitiveThrows price`; when it does not
throw it gives a boolean, and `Number.isInteger` is false on a non-number, so
the disjunction is true. -/
def priceIsInvalid : JsVal → Option Bool
  | .num q => some (decide (q ≤ 0) || !(JsVal.num q).isInteger)
  | price => if toPrimitiveThrows price then none else some true

/-- Verify that the `price` property is valid. -/
def pricePropertyIsValid : Middleware Dish := fun req locals dishes =>
  match bodyField req.body "price" with
  | none => Step.throw dishes
  | some price =>
    match priceIsInvalid price with
    | none => Step.throw dishes
    | some true =>
      Step.error 400 "Dish must have a price that is an integer greater than 0" dishes
    | some false => Step.next locals dishes

/-- Create a new dish. -/
def create : Middleware Dish := fun req _ dishes =>
  match bodyField req.body "name", bodyField req.body "description",
      bodyField req.body "price", bodyField req.body "image_url" with
  | some name, some description, some price, some image_url =>
    let newDish : Dish :=
      { id := req.nextId, name := name, description := description,
        price := price, image_url := image_url }
    Step.respond 201 (Body.record newDish) (dishes ++ [newDish])
  | _, _, _, _ => Step.throw dishes

/-- Verify that the dish exists; the dish found is kept in `res.locals`. -/
def dishExists : Middleware Dish := fun req _ dishes =>
  match findIndex (fun dish => decide (dish.id = req.param)) dishes with
  | some foundDish => Step.next (some foundDish) dishes
  | none => Step.error 404 ("Dish id not found: " ++ req.param) dishes

/-- Read a specific dish: `res.json({ data: res.locals.dish })`. -/
def read : Middleware Dish := fun _ locals dishes =>
  match locals.bind (fun i => dishes.get? i) with
  | some dish => Step.respond 200 (Body.record dish) dishes
  | none => Step.respond 200 Body.empty dishes

/-- Update a specific dish. -/
def update : Middleware Dish := fun req locals dishes =>
  match bodyField req.body "id", bodyField req.body "name",
      bodyField req.body "description", bodyField req.body "price",
      bodyField req.body "image_url" with
  | some id, some name, some description, some price, some image_url =>
    if id.truthy && !id.strictEqStr req.param then
      match templateString req.numberToString id with
      | none => Step.throw dishes
      | some rendered =>
        Step.error 400
          ("Dish id does not match route id. Dish: " ++ rendered ++
            ", Route: " ++ req.param) dishes
    else
      match locals with
      | none => Step.throw dishes
      | some i =>
        match dishes.get? i with
        | none => Step.throw dishes
        | some dish =>
          let updated : Dish :=
            { dish with name := name, description := description,
                        price := price, image_url := image_url }
          Step.respond 200 (Body.record updated) (modifyAt (fun _ => updated) i dishes)
  | _, _, _, _, _ => Step.throw dishes

/-- The chain `module.exports.create`. -/
def createChain : List (Middleware Dish) :=
  [bodyDataHas "name", bodyDataHas "description", bodyDataHas "price",
   bodyDataHas "image_url", namePropertyIsValid, descriptionPropertyIsValid,
   pricePropertyIsValid, imageUrlPropertyIsValid, create]

/-- The chain `module.exports.read`. -/
def readChain : List (Middleware Dish) := [dishExists, read]

/-- The chain `module.exports.update`. -/
def updateChain : List (Middleware Dish) :=
  [dishExists, bodyDataHas "name", bodyDataHas "description", bodyDataHas "price",
   bodyDataHas "image_url", namePropertyIsValid, descriptionPropertyIsValid,
   pricePropertyIsValid, imageUrlPropertyIsValid, update]

end Dishes

/-! ## Sample data -/

/-- A request with the given body and route parameter, for which `nextId()`
returns "new".  The sample requests render no number in a message. -/
def mkRequest (body : JsVal) (param : String) : Request :=
  { body := body, param := param, nextId := "new", numberToString := fun _ => "" }

/-- A stored dish with id `id` and price `price`. -/
def sampleDish (id : String) (price : ℕ) : Dish :=
  { id := id, name := .str "Century Eggs", description := .str "Whole eggs preserved in clay",
    price := .num price, image_url := .str "https://example.org/century-eggs.jpg" }

/-- A body `{ data: { name, description, price, image_url } }` for a dish. -/
def dishBody (price : ℕ) : JsVal :=
  .obj [("data", .obj [("name", .str "Dolcelatte and chickpea spaghetti"),
                       ("description", .str "Spaghetti topped with a blend of dolcelatte"),
                       ("price", .num price),
                       ("image_url", .str "https://example.org/spaghetti.jpg")])]

/-- A body `{ data: { name, description: "", price } }` for a dish: the
description is empty and the image_url is absent. -/
def dishBodyNoDescription : JsVal :=
  .obj [("data", .obj [("name", .str "Dolcelatte and chickpea spaghetti"),
                       ("description", .str ""),
                       ("price", .num 19)])]

/-- A body `{ data: { name, description, price, image_url } }` for a dish,
with any value as price. -/
def dishBodyWithPrice (price : JsVal) : JsVal :=
  .obj [("data", .obj [("name", .str "Dolcelatte and chickpea spaghetti"),
                       ("description", .str "Spaghetti topped with a blend of dolcelatte"),
                       ("price", price),
                       ("image_url", .str "https://example.org/spaghetti.jpg")])]

/-- A body `{ data: { id, name, description, price, image_url } }` for a
dish update, with any value as id. -/
def dishBodyWithId (id : JsVal) : JsVal :=
  .obj [("data", .obj [("id", id),
                       ("name", .str "Dolcelatte and chickpea spaghetti"),
                       ("description", .str "Spaghetti topped with a blend of dolcelatte"),
                       ("price", .num (7 : ℕ)),
                       ("image_url", .str "https://example.org/spaghetti.jpg")])]

/-- One line item of an order, `{ dishId, quantity }`. -/
def lineItem (dishId : String) (quantity : ℕ) : JsVal :=
  .obj [("dishId", .str dishId), ("quantity", .num quantity)]

/-- A stored order with id `id`, status `status` and one line item. -/
def sampleOrder (id status : String) : Order :=
  { id := id, deliverTo := .str "308 Negra Arroyo Lane", mobileNumber := .str "(505) 143-3369",
    status := .str status, dishes := .arr [lineItem "d1" 1] }

/-- A body `{ data: { deliverTo, mobileNumber, status, dishes } }` for an order update. -/
def orderUpdateBody (status : String) : JsVal :=
  .obj [("data", .obj [("deliverTo", .str "1600 Pennsylvania Avenue"),
                       ("mobileNumber", .str "(202) 456-1111"),
                       ("status", .str status),
                       ("dishes", .arr [lineItem "d2" 2])])]

/-- A body `{ data: { deliverTo, mobileNumber, dishes } }` for an order
creation, with any values as deliverTo and dishes. -/
def orderCreateBodyWith (deliverTo dishes : JsVal) : JsVal :=
  .obj [("data", .obj [("deliverTo", deliverTo),
                       ("mobileNumber", .str "(202) 456-1111"),
                       ("dishes", dishes)])]

/-- A body `{ data: { id, deliverTo, mobileNumber, status, dishes } }` for an
order update, with any value as id. -/
def orderUpdateBodyWithId (id : JsVal) (status : String) : JsVal :=
  .obj [("data", .obj [("id", id),
                       ("deliverTo", .str "1600 Pennsylvania Avenue"),
                       ("mobileNumber", .str "(202) 456-1111"),
                       ("status", .str status),
                       ("dishes", .arr [lineItem "d2" 2])])]

/-- A body `{ data: { deliverTo, mobileNumber } }` for an order creation,
without `dishes`. -/
def orderCreateBodyNoDishes : JsVal :=
  .obj [("data", .obj [("deliverTo", .str "1600 Pennsylvania Avenue"),
                       ("mobileNumber", .str "(202) 456-1111")])]

/-- A body `{ data: { deliverTo, mobileNumber, dishes } }` for an order creation, without `status`. -/
def orderCreateBodyNoStatus : JsVal :=
  .obj [("data", .obj [("deliverTo", .str "1600 Pennsylvania Avenue"),
                       ("mobileNumber", .str "(202) 456-1111"),
                       ("dishes", .arr [lineItem "d2" 2])])]

/-- The middleware `m` calls `next()` on the request `req`, leaving
`res.locals` and the collection as they are, whatever they hold. -/
def Passes {ρ : Type} (m : Middleware ρ) (req : Request) : Prop :=
  ∀ (locals : Option Nat) (coll : List ρ), m req locals coll = Step.next locals coll

/-- The middleware `m` is a validator: it never touches the collection,
and either calls `next()`, calls `next(err)`, or throws. -/
def Validator {ρ : Type} (m : Middleware ρ) : Prop :=
  ∀ (req : Request) (locals : Option Nat) (coll : List ρ),
    (∃ locals1, m req locals coll = Step.next locals1 coll) ∨
    (∃ status message, m req locals coll = Step.error status message coll) ∨
    m req locals coll = Step.throw coll

/-- The middleware `m` is a check: a validator that leaves `res.locals` as
it is when it calls `next()`. -/
def Check {ρ : Type} (m : Middleware ρ) : Prop :=
  ∀ (req : Request) (locals : Option Nat) (coll : List ρ),
    m req locals coll = Step.next locals coll ∨
    (∃ status message, m req locals coll = Step.error status message coll) ∨
    m req locals coll = Step.throw coll

/-- A value that is an integer greater than 0. -/
def positiveInteger (v : JsVal) : Prop :=
  ∃ n : ℕ, 0 < n ∧ v = JsVal.num n

/-- A `dishes` value that is a non-empty sequence whose every item has a
quantity that is an integer greater than 0. -/
def dishesWellFormed (v : JsVal) : Prop :=
  ∃ items, v = JsVal.arr items ∧ items ≠ [] ∧
    ∀ item ∈ items, ∃ quantity, getProp item "quantity" = some quantity ∧
      positiveInteger quantity

/-- A `status` value that is one of the four order states. -/
def statusInEnum (v : JsVal) : Prop :=
  v = JsVal.str "pending" ∨ v = JsVal.str "preparing" ∨
    v = JsVal.str "out-for-delivery" ∨ v = JsVal.str "delivered"

/-- The test `if (v.length)` of the validity stages: the `length` of `v` can
be read and is truthy. -/
def lengthTruthy (v : JsVal) : Bool :=
  match getProp v "length" with
  | some len => len.truthy
  | none => false

/-- A dish payload that is valid: name, description and image_url are truthy
with a truthy length (a non-empty string, for instance), and price is an
integer greater than 0. -/
def dishPayloadValid (name description price image_url : JsVal) : Prop :=
  (name.truthy = true ∧ lengthTruthy name = true) ∧
  (description.truthy = true ∧ lengthTruthy description = true) ∧
  positiveInteger price ∧
  (image_url.truthy = true ∧ lengthTruthy image_url = true)

/-- An item of `dishes` with an acceptable quantity: the quantity can be
read and is an integer greater than 0. -/
def quantityAcceptable (item : JsVal) : Prop :=
  ∃ quantity, getProp item "quantity" = some quantity ∧ positiveInteger quantity

/-- An item of `dishes` that is not `null` and whose quantity is missing,
not an integer, or not greater than 0. -/
def quantityOffending (item : JsVal) : Prop :=
  ∃ quantity, getProp item "quantity" = some quantity ∧ ¬ positiveInteger quantity

/-- The five fields that `update` destructures from the payload of an order
update read as `id`, `deliverTo`, `mobileNumber`, `status`, `dishes` (an
absent field reads as `undefined`). -/
def orderPayloadReads (body id deliverTo mobileNumber status dishes : JsVal) : Prop :=
  bodyField body "id" = some id ∧
  bodyField body "deliverTo" = some deliverTo ∧
  bodyField body "mobileNumber" = some mobileNumber ∧
  bodyField body "status" = some status ∧
  bodyField body "dishes" = some dishes

/-- An order payload that is valid: deliverTo and mobileNumber are truthy
with a truthy length, dishes is well formed, and status is one of the four
order states. -/
def orderPayloadValid (deliverTo mobileNumber status dishes : JsVal) : Prop :=
  (deliverTo.truthy = true ∧ lengthTruthy deliverTo = true) ∧
  (mobileNumber.truthy = true ∧ lengthTruthy mobileNumber = true) ∧
  dishesWellFormed dishes ∧
  statusInEnum status

/-- The acceptance condition of an order update on the payload, for the
route id `param`: deliverTo and mobileNumber are truthy with a truthy
length, dishes is well formed, status is one of pending, preparing,
out-for-delivery, and the payload id is falsy (or absent) or equal to the
route id. -/
def orderUpdateAccepted (param : String)
    (id deliverTo mobileNumber status dishes : JsVal) : Prop :=
  (deliverTo.truthy = true ∧ lengthTruthy deliverTo = true) ∧
  (mobileNumber.truthy = true ∧ lengthTruthy mobileNumber = true) ∧
  dishesWellFormed dishes ∧
  (status = JsVal.str "pending" ∨ status = JsVal.str "preparing" ∨
    status = JsVal.str "out-for-delivery") ∧
  (id.truthy = false ∨ id = JsVal.str param)

/-! ## Lists and chains -/

/-- The search `findIndex` finds an index when some element satisfies the test. -/
theorem findIndex_of_exists {α : Type} (p : α → Bool) (l : List α)
    (h : ∃ a ∈ l, p a = true) : ∃ i, findIndex p l = some i := by
  induction l with
  | nil => simp at h
  | cons a l ih =>
    by_cases ha : p a = true
    · exact ⟨0, by simp [findIndex, ha]⟩
    · obtain ⟨b, hb, hpb⟩ := h
      rcases List.mem_cons.mp hb with rfl | hmem
      · exact absurd hpb ha
      · obtain ⟨i, hi⟩ := ih ⟨b, hmem, hpb⟩
        exact ⟨i + 1, by simp [findIndex, ha, hi]⟩

/-! ## Order delete: the search of `destroy` assigns instead of comparing -/

/-- For a non-empty route parameter, the search of `destroy` overwrites the id
of the first order and stops there, whatever the ids are. -/
theorem destroyFindIndex_truthy (orderId : String) (h : orderId ≠ "")
    (order : Order) (rest : List Order) :
    Orders.destroyFindIndex orderId (order :: rest)
      = ({ order with id := orderId } :: rest, some 0) := by
  simp [Orders.destroyFindIndex, JsVal.truthy, h]

/-- For a non-empty route parameter that some order carries, the delete chain
decides on the status of the FIRST order of the collection: it removes that
order when it is pending, and otherwise fails with 400 after overwriting
that order's id with the route parameter. -/
theorem deleteChain_acts_on_first (req : Request) (order : Order) (rest : List Order)
    (hne : req.param ≠ "") (hex : ∃ o ∈ order :: rest, o.id = req.param) :
    runChain Orders.deleteChain req none (order :: rest) =
      if order.status.strictEqStr "pending" then Step.respond 204 Body.empty rest
      else Step.error 400 "An order cannot be deleted unless it is pending"
        ({ order with id := req.param } :: rest) := by
  obtain ⟨i, hi⟩ := findIndex_of_exists (fun o : Order => decide (o.id = req.param))
    (order :: rest) (by obtain ⟨o, ho, hid⟩ := hex; exact ⟨o, ho, by simp [hid]⟩)
  simp only [Orders.deleteChain, runChain, Orders.orderExists, hi, Orders.destroy,
    destroyFindIndex_truthy req.param hne]
  simp only [List.get?_cons_zero, List.eraseIdx_cons_zero]
  by_cases hp : order.status.strictEqStr "pending" = true <;> simp [hp]

/-- C1 (code at the failing input): with two pending orders "1" and "2",
`DELETE /orders/2` answers 204 but removes order "1", and order "2", the
one addressed, stays in the collection. -/
theorem delete_removes_first_not_addressed :
    runChain Orders.deleteChain (mkRequest (.obj []) "2") none
        [sampleOrder "1" "pending", sampleOrder "2" "pending"]
      = Step.respond 204 Body.empty [sampleOrder "2" "pending"] := by
  rfl

/-- C2 (code at the failing input): with order "1" preparing and order "2"
pending, `DELETE /orders/2` fails with 400 "An order cannot be deleted unless
it is pending" although the addressed order is pending, and order "2" stays. -/
theorem delete_pending_refused :
    runChain Orders.deleteChain (mkRequest (.obj []) "2") none
        [sampleOrder "1" "preparing", sampleOrder "2" "pending"]
      = Step.error 400 "An order cannot be deleted unless it is pending"
          [sampleOrder "2" "preparing", sampleOrder "2" "pending"] := by
  rfl

/-- C3 (code at the failing input): the ids "1", "2", "3" are pairwise
distinct before `DELETE /orders/3`, and after the failed delete the ids are
"3", "2", "3": two orders share the id "3". -/
theorem delete_breaks_id_uniqueness :
    ([sampleOrder "1" "delivered", sampleOrder "2" "pending",
        sampleOrder "3" "pending"].map Order.id).Nodup ∧
    (runChain Orders.deleteChain (mkRequest (.obj []) "3") none
        [sampleOrder "1" "delivered", sampleOrder "2" "pending",
          sampleOrder "3" "pending"]).coll.map Order.id = ["3", "2", "3"] ∧
    ¬ (["3", "2", "3"] : List String).Nodup := by
  refine ⟨by decide, by rfl, by decide⟩

/-- C4 (code at the failing input): order "1" is stored with status
"delivered"; `PUT /orders/1` with a valid payload of status "pending"
succeeds and overwrites deliverTo, mobileNumber, status and dishes. -/
theorem update_overwrites_delivered_order :
    runChain Orders.updateChain (mkRequest (orderUpdateBody "pending") "1") none
        [sampleOrder "1" "delivered"]
      = Step.respond 200
          (Body.record
            { id := "1", deliverTo := .str "1600 Pennsylvania Avenue",
              mobileNumber := .str "(202) 456-1111", status := .str "pending",
              dishes := .arr [lineItem "d2" 2] })
          [{ id := "1", deliverTo := .str "1600 Pennsylvania Avenue",
             mobileNumber := .str "(202) 456-1111", status := .str "pending",
             dishes := .arr [lineItem "d2" 2] }] := by
  rfl

/-- C6 (code at the failing input): `DELETE /orders/2` on a collection whose
first order is the delivered order "1" fails with 400 and removes nothing,
yet the first order, still in the collection, now has id "2". -/
theorem delete_overwrites_first_id :
    runChain Orders.deleteChain (mkRequest (.obj []) "2") none
        [sampleOrder "1" "delivered", sampleOrder "2" "pending"]
      = Step.error 400 "An order cannot be deleted unless it is pending"
          [{ sampleOrder "1" "delivered" with id := "2" }, sampleOrder "2" "pending"] := by
  rfl

/-! ## Order update with a payload of status "delivered" -/

/-- A presence stage that passes has read a truthy value of its property. -/
theorem order_bodyDataHas_passes {req : Request} {propertyName : String}
    (h : Passes (Orders.bodyDataHas propertyName) req) :
    ∃ v, bodyField req.body propertyName = some v ∧ v.truthy = true := by
  have h0 := h none []
  unfold Orders.bodyDataHas at h0
  cases hb : bodyField req.body propertyName with
  | none => simp [hb] at h0
  | some v =>
    refine ⟨v, rfl, ?_⟩
    by_cases hv : v.truthy = true
    · exact hv
    · simp [hb, hv] at h0

/-- C5: when an order with the route id exists and the payload passes the
presence and validity stages for deliverTo, mobileNumber and dishes, has
status "delivered" and an id that is absent, falsy or equal to the route id,
the order update chain fails with 400 "A delivered order cannot be changed"
and leaves the collection as it was. -/
theorem update_delivered_payload_rejected (req : Request) (orders : List Order) (id : JsVal)
    (hex : ∃ o ∈ orders, o.id = req.param)
    (hDeliverTo : Passes (Orders.bodyDataHas "deliverTo") req)
    (hMobile : Passes (Orders.bodyDataHas "mobileNumber") req)
    (hDishes : Passes (Orders.bodyDataHas "dishes") req)
    (hDeliverToValid : Passes Orders.deliverToIsValid req)
    (hMobileValid : Passes Orders.mobileNumberIsValid req)
    (hDishesValid : Passes Orders.dishesIsValid req)
    (hstatus : bodyField req.body "status" = some (.str "delivered"))
    (hid : bodyField req.body "id" = some id)
    (hmatch : id.truthy = false ∨ id = .str req.param) :
    runChain Orders.updateChain req none orders
      = Step.error 400 "A delivered order cannot be changed" orders := by
  obtain ⟨i, hi⟩ := findIndex_of_exists (fun o : Order => decide (o.id = req.param))
    orders (by obtain ⟨o, ho, hoid⟩ := hex; exact ⟨o, ho, by simp [hoid]⟩)
  obtain ⟨d, hd, -⟩ := order_bodyDataHas_passes hDeliverTo
  obtain ⟨m, hm, -⟩ := order_bodyDataHas_passes hMobile
  obtain ⟨ds, hds, -⟩ := order_bodyDataHas_passes hDishes
  have hcond : (id.truthy && !id.strictEqStr req.param) = false := by
    rcases hmatch with h | h
    · simp [h]
    · simp [h, JsVal.strictEqStr]
  have hStatus : Orders.bodyDataHas "status" req (some i) orders
      = Step.next (some i) orders := by
    simp [Orders.bodyDataHas, hstatus, JsVal.truthy]
  have hStatusValid : Orders.statusIsValid req (some i) orders
      = Step.next (some i) orders := by
    simp [Orders.statusIsValid, hstatus, JsVal.strictEqStr]
  have hUpdate : Orders.update req (some i) orders
      = Step.error 400 "A delivered order cannot be changed" orders := by
    unfold Orders.update
    simp only [hid, hd, hm, hstatus, hds]
    rw [if_neg (by simp [hcond])]
    simp [JsVal.strictEqStr]
  simp only [Orders.updateChain, runChain, Orders.orderExists, hi,
    hDeliverTo (some i) orders, hMobile (some i) orders, hDishes (some i) orders,
    hDeliverToValid (some i) orders, hMobileValid (some i) orders,
    hDishesValid (some i) orders, hStatus, hStatusValid, hUpdate]

/-- C5 at a concrete request: order "7" exists and the payload, with status
"delivered", passes every earlier stage. -/
theorem update_delivered_payload_rejected_witness :
    runChain Orders.updateChain (mkRequest (orderUpdateBody "delivered") "7") none
        [sampleOrder "3" "pending", sampleOrder "7" "preparing"]
      = Step.error 400 "A delivered order cannot be changed"
          [sampleOrder "3" "pending", sampleOrder "7" "preparing"] :=
  update_delivered_payload_rejected (mkRequest (orderUpdateBody "delivered") "7")
    [sampleOrder "3" "pending", sampleOrder "7" "preparing"] .undefined
    ⟨sampleOrder "7" "preparing", by simp, rfl⟩
    (fun _ _ => rfl) (fun _ _ => rfl) (fun _ _ => rfl)
    (fun _ _ => rfl) (fun _ _ => rfl) (fun _ _ => rfl)
    rfl rfl (Or.inl rfl)

/-! ## Chains of validators -/

/-- After a middleware that calls `next()`, the chain continues with the rest. -/
theorem runChain_cons_next {ρ : Type} {m : Middleware ρ} {rest : List (Middleware ρ)}
    {req : Request} {locals locals1 : Option Nat} {coll coll1 : List ρ}
    (h : m req locals coll = Step.next locals1 coll1) :
    runChain (m :: rest) req locals coll = runChain rest req locals1 coll1 := by
  simp only [runChain, h]

/-- A middleware that calls `next(err)` ends the chain with that error. -/
theorem runChain_cons_error {ρ : Type} {m : Middleware ρ} {rest : List (Middleware ρ)}
    {req : Request} {locals : Option Nat} {coll coll1 : List ρ} {status : Nat}
    {message : String} (h : m req locals coll = Step.error status message coll1) :
    runChain (m :: rest) req locals coll = Step.error status message coll1 := by
  simp only [runChain, h]

/-- A middleware that throws ends the chain. -/
theorem runChain_cons_throw {ρ : Type} {m : Middleware ρ} {rest : List (Middleware ρ)}
    {req : Request} {locals : Option Nat} {coll coll1 : List ρ}
    (h : m req locals coll = Step.throw coll1) :
    runChain (m :: rest) req locals coll = Step.throw coll1 := by
  simp only [runChain, h]

/-- A middleware that answers the request ends the chain. -/
theorem runChain_cons_respond {ρ : Type} {m : Middleware ρ} {rest : List (Middleware ρ)}
    {req : Request} {locals : Option Nat} {coll coll1 : List ρ} {status : Nat}
    {body : Body ρ} (h : m req locals coll = Step.respond status body coll1) :
    runChain (m :: rest) req locals coll = Step.respond status body coll1 := by
  simp only [runChain, h]

/-- A chain of one middleware does what the middleware does. -/
theorem runChain_singleton {ρ : Type} (m : Middleware ρ) (req : Request)
    (locals : Option Nat) (coll : List ρ) :
    runChain [m] req locals coll = m req locals coll := by
  simp only [runChain]
  split
  · rename_i heq
    exact heq.symm
  · rfl

/-- A chain that starts with validators either runs them all, each calling
`next()`, and continues with the rest on the same collection, or stops at
one of them with an error or an exception, the collection untouched. -/
theorem runChain_append_validators {ρ : Type} (ms rest : List (Middleware ρ))
    (hms : ∀ m ∈ ms, Validator m) (req : Request) (locals : Option Nat) (coll : List ρ) :
    (∃ locals1, runChain (ms ++ rest) req locals coll = runChain rest req locals1 coll ∧
        ∀ m ∈ ms, ∃ l1 l2, m req l1 coll = Step.next l2 coll) ∨
    (∃ status message, runChain (ms ++ rest) req locals coll = Step.error status message coll) ∨
    runChain (ms ++ rest) req locals coll = Step.throw coll := by
  induction ms generalizing locals with
  | nil => exact Or.inl ⟨locals, rfl, by simp⟩
  | cons m ms ih =>
    have hm : Validator m := hms m (List.mem_cons_self m ms)
    have hrest : ∀ m1 ∈ ms, Validator m1 := fun m1 h1 => hms m1 (List.mem_cons_of_mem m h1)
    rcases hm req locals coll with ⟨l1, h1⟩ | ⟨st, msg, h1⟩ | h1
    · rcases ih hrest l1 with ⟨l2, h2, hall⟩ | ⟨st, msg, h2⟩ | h2
      · refine Or.inl ⟨l2, ?_, ?_⟩
        · rw [List.cons_append, runChain_cons_next h1]
          exact h2
        · intro m1 hm1
          rcases List.mem_cons.mp hm1 with rfl | hm1
          · exact ⟨locals, l1, h1⟩
          · exact hall m1 hm1
      · exact Or.inr (Or.inl ⟨st, msg, by rw [List.cons_append, runChain_cons_next h1]; exact h2⟩)
      · exact Or.inr (Or.inr (by rw [List.cons_append, runChain_cons_next h1]; exact h2))
    · exact Or.inr (Or.inl ⟨st, msg, by rw [List.cons_append]; exact runChain_cons_error h1⟩)
    · exact Or.inr (Or.inr (by rw [List.cons_append]; exact runChain_cons_throw h1))

/-- A property of collections that holds before a chain of validators
followed by one handler holds after it, provided the handler establishes it
whenever every validator has called `next()`. -/
theorem runChain_validators_coll {ρ : Type} (ms : List (Middleware ρ)) (t : Middleware ρ)
    (hms : ∀ m ∈ ms, Validator m) (P : List ρ → Prop) (req : Request)
    (locals : Option Nat) (coll : List ρ) (hcoll : P coll)
    (ht : ∀ locals1, (∀ m ∈ ms, ∃ l1 l2, m req l1 coll = Step.next l2 coll) →
      P (t req locals1 coll).coll) :
    P (runChain (ms ++ [t]) req locals coll).coll := by
  rcases runChain_append_validators ms [t] hms req locals coll
    with ⟨l1, hrun, hall⟩ | ⟨st, msg, hrun⟩ | hrun
  · rw [hrun, runChain_singleton]
    exact ht l1 hall
  · rw [hrun]
    exact hcoll
  · rw [hrun]
    exact hcoll

/-- A record of a collection after an assignment through a reference is an
old record or the image of one. -/
theorem mem_modifyAt {α : Type} (f : α → α) (i : Nat) (l : List α) (a : α)
    (h : a ∈ modifyAt f i l) : a ∈ l ∨ ∃ b ∈ l, a = f b := by
  induction l generalizing i with
  | nil => simp [modifyAt] at h
  | cons b l ih =>
    cases i with
    | zero =>
      simp only [modifyAt, List.mem_cons] at h
      rcases h with rfl | h
      · exact Or.inr ⟨b, by simp, rfl⟩
      · exact Or.inl (by simp [h])
    | succ i =>
      simp only [modifyAt, List.mem_cons] at h
      rcases h with rfl | h
      · exact Or.inl (by simp)
      · rcases ih i h with h1 | ⟨c, hc, rfl⟩
        · exact Or.inl (by simp [h1])
        · exact Or.inr ⟨c, by simp [hc], rfl⟩

/-! ## Dish validators -/

/-- The middleware `Dishes.bodyDataHas` is a validator. -/
theorem dish_bodyDataHas_validator (propertyName : String) :
    Validator (Dishes.bodyDataHas propertyName) := by
  intro req locals coll
  unfold Dishes.bodyDataHas
  split
  · exact Or.inr (Or.inr rfl)
  · split
    · exact Or.inl ⟨locals, rfl⟩
    · exact Or.inr (Or.inl ⟨_, _, rfl⟩)

/-- The middleware `Dishes.namePropertyIsValid` is a validator. -/
theorem dish_namePropertyIsValid_validator : Validator Dishes.namePropertyIsValid := by
  intro req locals coll
  unfold Dishes.namePropertyIsValid
  split
  · exact Or.inr (Or.inr rfl)
  · split
    · exact Or.inr (Or.inr rfl)
    · split
      · exact Or.inl ⟨locals, rfl⟩
      · exact Or.inr (Or.inl ⟨_, _, rfl⟩)

/-- The middleware `Dishes.descriptionPropertyIsValid` is a validator. -/
theorem dish_descriptionPropertyIsValid_validator :
    Validator Dishes.descriptionPropertyIsValid := by
  intro req locals coll
  unfold Dishes.descriptionPropertyIsValid
  split
  · exact Or.inr (Or.inr rfl)
  · split
    · exact Or.inr (Or.inr rfl)
    · split
      · exact Or.inl ⟨locals, rfl⟩
      · exact Or.inr (Or.inl ⟨_, _, rfl⟩)

/-- The middleware `Dishes.imageUrlPropertyIsValid` is a validator. -/
theorem dish_imageUrlPropertyIsValid_validator :
    Validator Dishes.imageUrlPropertyIsValid := by
  intro req locals coll
  unfold Dishes.imageUrlPropertyIsValid
  split
  · exact Or.inr (Or.inr rfl)
  · split
    · exact Or.inr (Or.inr rfl)
    · split
      · exact Or.inl ⟨locals, rfl⟩
      · exact Or.inr (Or.inl ⟨_, _, rfl⟩)

/-- The middleware `Dishes.pricePropertyIsValid` is a validator. -/
theorem dish_pricePropertyIsValid_validator : Validator Dishes.pricePropertyIsValid := by
  intro req locals coll
  unfold Dishes.pricePropertyIsValid
  split
  · exact Or.inr (Or.inr rfl)
  · split
    · exact Or.inr (Or.inr rfl)
    · exact Or.inr (Or.inl ⟨_, _, rfl⟩)
    · exact Or.inl ⟨locals, rfl⟩

/-- The middleware `Dishes.dishExists` is a validator. -/
theorem dish_dishExists_validator : Validator Dishes.dishExists := by
  intro req locals coll
  unfold Dishes.dishExists
  split
  · exact Or.inl ⟨_, rfl⟩
  · exact Or.inr (Or.inl ⟨_, _, rfl⟩)

/-- The validators of the dish create chain, in declaration order. -/
theorem dish_create_validators :
    ∀ m ∈ [Dishes.bodyDataHas "name", Dishes.bodyDataHas "description",
        Dishes.bodyDataHas "price", Dishes.bodyDataHas "image_url",
        Dishes.namePropertyIsValid, Dishes.descriptionPropertyIsValid,
        Dishes.pricePropertyIsValid, Dishes.imageUrlPropertyIsValid], Validator m := by
  intro m hm
  simp only [List.mem_cons, List.mem_singleton, List.not_mem_nil, or_false] at hm
  rcases hm with rfl | rfl | rfl | rfl | rfl | rfl | rfl | rfl
  · exact dish_bodyDataHas_validator _
  · exact dish_bodyDataHas_validator _
  · exact dish_bodyDataHas_validator _
  · exact dish_bodyDataHas_validator _
  · exact dish_namePropertyIsValid_validator
  · exact dish_descriptionPropertyIsValid_validator
  · exact dish_pricePropertyIsValid_validator
  · exact dish_imageUrlPropertyIsValid_validator

/-! ## Dish price -/

/-- A price that `pricePropertyIsValid` accepts is an integer greater than 0. -/
theorem positiveInteger_of_price_valid (price : JsVal)
    (h : Dishes.priceIsInvalid price = some false) : positiveInteger price := by
  cases price with
  | num q =>
    simp only [Dishes.priceIsInvalid, Option.some.injEq, JsVal.isInteger,
      Bool.or_eq_false_iff, decide_eq_false_iff_not, not_le, Bool.not_eq_false',
      decide_eq_true_eq] at h
    obtain ⟨hpos, hden⟩ := h
    have hq : (q.num : ℚ) = q := Rat.coe_int_num_of_den_eq_one hden
    have hnum : 0 < q.num := Rat.num_pos.mpr hpos
    refine ⟨q.num.toNat, by omega, ?_⟩
    congr 1
    rw [← hq]
    have : ((q.num.toNat : ℤ) : ℚ) = (q.num : ℚ) := by
      rw [Int.toNat_of_nonneg hnum.le]
    exact_mod_cast this.symm
  | _ =>
    simp only [Dishes.priceIsInvalid] at h
    split at h <;> cases h

/-- When `pricePropertyIsValid` calls `next()`, the price read from the body
is an integer greater than 0. -/
theorem dish_pricePropertyIsValid_next {req : Request} {l1 l2 : Option Nat}
    {coll : List Dish} (h : Dishes.pricePropertyIsValid req l1 coll = Step.next l2 coll) :
    ∃ price, bodyField req.body "price" = some price ∧ positiveInteger price := by
  unfold Dishes.pricePropertyIsValid at h
  cases hb : bodyField req.body "price" with
  | none => simp [hb] at h
  | some price =>
    refine ⟨price, rfl, positiveInteger_of_price_valid price ?_⟩
    cases hp : Dishes.priceIsInvalid price with
    | none => simp [hb, hp] at h
    | some b =>
      cases b with
      | true => simp [hb, hp] at h
      | false => rfl

/-- A dish of the collection left by `create` is an old dish, or carries the
price read from the body. -/
theorem dish_create_mem (req : Request) (locals : Option Nat) (dishes : List Dish)
    (d : Dish) (hd : d ∈ (Dishes.create req locals dishes).coll) :
    d ∈ dishes ∨ bodyField req.body "price" = some d.price := by
  unfold Dishes.create at hd
  cases h1 : bodyField req.body "name" <;> cases h2 : bodyField req.body "description" <;>
    cases h3 : bodyField req.body "price" <;> cases h4 : bodyField req.body "image_url" <;>
    simp only [h1, h2, h3, h4, Step.coll, List.mem_append, List.mem_singleton] at hd <;>
    first
      | exact Or.inl hd
      | (rcases hd with hd | rfl
         · exact Or.inl hd
         · exact Or.inr rfl)

/-- A dish of the collection left by `update` is an old dish, or carries the
price read from the body. -/
theorem dish_update_mem (req : Request) (locals : Option Nat) (dishes : List Dish)
    (d : Dish) (hd : d ∈ (Dishes.update req locals dishes).coll) :
    d ∈ dishes ∨ bodyField req.body "price" = some d.price := by
  have hcoll : (Dishes.update req locals dishes).coll = dishes ∨
      ∃ i dish, bodyField req.body "price" = some dish.price ∧
        (Dishes.update req locals dishes).coll = modifyAt (fun _ => dish) i dishes := by
    unfold Dishes.update
    split
    · rename_i h0 h1 h2 h3 h4
      split
      · split <;> exact Or.inl rfl
      · split
        · exact Or.inl rfl
        · split
          · exact Or.inl rfl
          · exact Or.inr ⟨_, _, h3, rfl⟩
    · exact Or.inl rfl
  rcases hcoll with hc | ⟨i, dish, hp, hc⟩
  · exact Or.inl (hc ▸ hd)
  · rw [hc] at hd
    rcases mem_modifyAt _ _ _ _ hd with hd | ⟨b, -, rfl⟩
    · exact Or.inl hd
    · exact Or.inr hp

/-- C7: if every dish of the collection has a price that is an integer
greater than 0, then so has every dish of the collection left by the dish
create chain and by the dish update chain, on any request and whatever the
outcome. -/
theorem dish_price_stays_positive_integer (req : Request) (dishes : List Dish)
    (h : ∀ d ∈ dishes, positiveInteger d.price) :
    (∀ d ∈ (runChain Dishes.createChain req none dishes).coll, positiveInteger d.price) ∧
    (∀ d ∈ (runChain Dishes.updateChain req none dishes).coll, positiveInteger d.price) := by
  constructor
  · rcases runChain_append_validators _ [Dishes.create] dish_create_validators
      req none dishes with ⟨l1, hrun, hall⟩ | ⟨st, msg, hrun⟩ | hrun
    · obtain ⟨a, b, hprice⟩ := hall Dishes.pricePropertyIsValid (by simp)
      obtain ⟨price, hp, hpos⟩ := dish_pricePropertyIsValid_next hprice
      have hchain : runChain Dishes.createChain req none dishes
          = Dishes.create req l1 dishes := hrun.trans (runChain_singleton _ _ _ _)
      rw [hchain]
      intro d hd
      rcases dish_create_mem req l1 dishes d hd with hd | hd
      · exact h d hd
      · rw [hp, Option.some.injEq] at hd
        exact hd ▸ hpos
    · have hchain : runChain Dishes.createChain req none dishes
          = Step.error st msg dishes := hrun
      rw [hchain]
      exact h
    · have hchain : runChain Dishes.createChain req none dishes = Step.throw dishes := hrun
      rw [hchain]
      exact h
  · rcases runChain_append_validators [Dishes.dishExists] _
      (by intro m hm; simp only [List.mem_singleton] at hm; subst hm
          exact dish_dishExists_validator) req none dishes
      with ⟨l0, hrun0, -⟩ | ⟨st, msg, hrun0⟩ | hrun0
    · rcases runChain_append_validators _ [Dishes.update] dish_create_validators
        req l0 dishes with ⟨l1, hrun, hall⟩ | ⟨st, msg, hrun⟩ | hrun
      · obtain ⟨a, b, hprice⟩ := hall Dishes.pricePropertyIsValid (by simp)
        obtain ⟨price, hp, hpos⟩ := dish_pricePropertyIsValid_next hprice
        have hchain : runChain Dishes.updateChain req none dishes
            = Dishes.update req l1 dishes :=
          (hrun0.trans hrun).trans (runChain_singleton _ _ _ _)
        rw [hchain]
        intro d hd
        rcases dish_update_mem req l1 dishes d hd with hd | hd
        · exact h d hd
        · rw [hp, Option.some.injEq] at hd
          exact hd ▸ hpos
      · have hchain : runChain Dishes.updateChain req none dishes
            = Step.error st msg dishes := hrun0.trans hrun
        rw [hchain]
        exact h
      · have hchain : runChain Dishes.updateChain req none dishes
            = Step.throw dishes := hrun0.trans hrun
        rw [hchain]
        exact h
    · have hchain : runChain Dishes.updateChain req none dishes
          = Step.error st msg dishes := hrun0
      rw [hchain]
      exact h
    · have hchain : runChain Dishes.updateChain req none dishes = Step.throw dishes := hrun0
      rw [hchain]
      exact h

/-- C7 at a concrete collection and request: a dish of price 10, and a
valid payload of price 7 sent to `/dishes/1`. -/
theorem dish_price_stays_positive_integer_witness :
    (∀ d ∈ [sampleDish "1" 10], positiveInteger d.price) ∧
    (∀ d ∈ (runChain Dishes.createChain (mkRequest (dishBody 7) "1") none
        [sampleDish "1" 10]).coll, positiveInteger d.price) ∧
    (∀ d ∈ (runChain Dishes.updateChain (mkRequest (dishBody 7) "1") none
        [sampleDish "1" 10]).coll, positiveInteger d.price) :=
  have h : ∀ d ∈ [sampleDish "1" 10], positiveInteger d.price := by
    intro d hd
    rw [List.mem_singleton] at hd
    subst hd
    exact ⟨10, by decide, rfl⟩
  ⟨h, dish_price_stays_positive_integer (mkRequest (dishBody 7) "1") [sampleDish "1" 10] h⟩

/-! ## Order validators -/

/-- The middleware `Orders.bodyDataHas` is a validator. -/
theorem order_bodyDataHas_validator (propertyName : String) :
    Validator (Orders.bodyDataHas propertyName) := by
  intro req locals coll
  unfold Orders.bodyDataHas
  split
  · exact Or.inr (Or.inr rfl)
  · split
    · exact Or.inl ⟨locals, rfl⟩
    · exact Or.inr (Or.inl ⟨_, _, rfl⟩)

/-- The middleware `Orders.deliverToIsValid` is a validator. -/
theorem order_deliverToIsValid_validator : Validator Orders.deliverToIsValid := by
  intro req locals coll
  unfold Orders.deliverToIsValid
  split
  · exact Or.inr (Or.inr rfl)
  · split
    · exact Or.inr (Or.inr rfl)
    · split
      · exact Or.inl ⟨locals, rfl⟩
      · exact Or.inr (Or.inl ⟨_, _, rfl⟩)

/-- The middleware `Orders.mobileNumberIsValid` is a validator. -/
theorem order_mobileNumberIsValid_validator : Validator Orders.mobileNumberIsValid := by
  intro req locals coll
  unfold Orders.mobileNumberIsValid
  split
  · exact Or.inr (Or.inr rfl)
  · split
    · exact Or.inr (Or.inr rfl)
    · split
      · exact Or.inl ⟨locals, rfl⟩
      · exact Or.inr (Or.inl ⟨_, _, rfl⟩)

/-- The middleware `Orders.dishesIsValid` is a validator. -/
theorem order_dishesIsValid_validator : Validator Orders.dishesIsValid := by
  intro req locals coll
  unfold Orders.dishesIsValid
  split
  · exact Or.inr (Or.inr rfl)
  · split
    · split
      · split
        · exact Or.inr (Or.inr rfl)
        · exact Or.inr (Or.inl ⟨_, _, rfl⟩)
        · exact Or.inl ⟨locals, rfl⟩
      · exact Or.inr (Or.inl ⟨_, _, rfl⟩)
    · exact Or.inr (Or.inl ⟨_, _, rfl⟩)

/-- The middleware `Orders.statusIsValid` is a validator. -/
theorem order_statusIsValid_validator : Validator Orders.statusIsValid := by
  intro req locals coll
  unfold Orders.statusIsValid
  split
  · exact Or.inr (Or.inr rfl)
  · split
    · exact Or.inl ⟨locals, rfl⟩
    · exact Or.inr (Or.inl ⟨_, _, rfl⟩)

/-- The middleware `Orders.orderExists` is a validator. -/
theorem order_orderExists_validator : Validator Orders.orderExists := by
  intro req locals coll
  unfold Orders.orderExists
  split
  · exact Or.inl ⟨_, rfl⟩
  · exact Or.inr (Or.inl ⟨_, _, rfl⟩)

/-- The validators of the order create chain, in declaration order. -/
theorem order_create_validators :
    ∀ m ∈ [Orders.bodyDataHas "deliverTo", Orders.bodyDataHas "mobileNumber",
        Orders.bodyDataHas "dishes", Orders.deliverToIsValid, Orders.mobileNumberIsValid,
        Orders.dishesIsValid], Validator m := by
  intro m hm
  simp only [List.mem_cons, List.mem_singleton, List.not_mem_nil, or_false] at hm
  rcases hm with rfl | rfl | rfl | rfl | rfl | rfl
  · exact order_bodyDataHas_validator _
  · exact order_bodyDataHas_validator _
  · exact order_bodyDataHas_validator _
  · exact order_deliverToIsValid_validator
  · exact order_mobileNumberIsValid_validator
  · exact order_dishesIsValid_validator

/-- The validators of the order update chain, in declaration order. -/
theorem order_update_validators :
    ∀ m ∈ [Orders.orderExists, Orders.bodyDataHas "deliverTo",
        Orders.bodyDataHas "mobileNumber", Orders.bodyDataHas "status",
        Orders.bodyDataHas "dishes", Orders.deliverToIsValid, Orders.mobileNumberIsValid,
        Orders.dishesIsValid, Orders.statusIsValid], Validator m := by
  intro m hm
  simp only [List.mem_cons, List.mem_singleton, List.not_mem_nil, or_false] at hm
  rcases hm with rfl | rfl | rfl | rfl | rfl | rfl | rfl | rfl | rfl
  · exact order_orderExists_validator
  · exact order_bodyDataHas_validator _
  · exact order_bodyDataHas_validator _
  · exact order_bodyDataHas_validator _
  · exact order_bodyDataHas_validator _
  · exact order_deliverToIsValid_validator
  · exact order_mobileNumberIsValid_validator
  · exact order_dishesIsValid_validator
  · exact order_statusIsValid_validator

/-! ## Order dishes and status -/

/-- A search that ends without a hit and without an exception has seen the
callback return false on every element. -/
theorem findIndexThrowing_none {α : Type} (p : α → Option Bool) (l : List α)
    (h : findIndexThrowing p l = some none) : ∀ a ∈ l, p a = some false := by
  induction l with
  | nil => simp
  | cons b l ih =>
    unfold findIndexThrowing at h
    cases hb : p b with
    | none => simp [hb] at h
    | some r =>
      cases r with
      | true => simp [hb] at h
      | false =>
        simp only [hb] at h
        cases hrec : findIndexThrowing p l with
        | none => simp [hrec] at h
        | some r1 =>
          cases r1 with
          | some i => simp [hrec] at h
          | none =>
            intro a ha
            rcases List.mem_cons.mp ha with rfl | ha
            · exact hb
            · exact ih hrec a ha

/-- An item on which the callback of `dishesIsValid` returns false has a
quantity that is an integer greater than 0. -/
theorem quantity_of_not_invalid (item : JsVal)
    (h : Orders.invalidQuantity item = some false) :
    ∃ quantity, getProp item "quantity" = some quantity ∧ positiveInteger quantity := by
  unfold Orders.invalidQuantity at h
  cases hq : getProp item "quantity" with
  | none => simp [hq] at h
  | some quantity =>
    refine ⟨quantity, rfl, ?_⟩
    simp only [hq, Option.some.injEq, Bool.or_eq_false_iff, Bool.not_eq_false'] at h
    obtain ⟨⟨-, hint⟩, hle⟩ := h
    apply positiveInteger_of_price_valid
    cases quantity with
    | num q =>
      simp only [Orders.quantityLeZero] at hle
      simp [Dishes.priceIsInvalid, hint, hle]
    | _ => simp [JsVal.isInteger] at hint

/-- When `dishesIsValid` calls `next()`, the dishes read from the body are
well formed. -/
theorem order_dishesIsValid_next {req : Request} {l1 l2 : Option Nat}
    {coll : List Order} (h : Orders.dishesIsValid req l1 coll = Step.next l2 coll) :
    ∃ dishes, bodyField req.body "dishes" = some dishes ∧ dishesWellFormed dishes := by
  unfold Orders.dishesIsValid at h
  cases hb : bodyField req.body "dishes" with
  | none => simp [hb] at h
  | some dishes =>
    refine ⟨dishes, rfl, ?_⟩
    cases dishes with
    | arr items =>
      simp only [hb] at h
      by_cases hlen : (JsVal.num items.length).truthy = true
      · simp only [hlen, if_true] at h
        cases hfind : findIndexThrowing Orders.invalidQuantity items with
        | none => simp [hfind] at h
        | some r =>
          cases r with
          | some i => simp [hfind] at h
          | none =>
            refine ⟨items, rfl, ?_, ?_⟩
            · rintro rfl
              simp [JsVal.truthy] at hlen
            · intro item hitem
              exact quantity_of_not_invalid item (findIndexThrowing_none _ _ hfind item hitem)
      · simp [hlen] at h
    | _ => simp [hb] at h

/-- When `statusIsValid` calls `next()`, the status read from the body is
one of the four order states. -/
theorem order_statusIsValid_next {req : Request} {l1 l2 : Option Nat}
    {coll : List Order} (h : Orders.statusIsValid req l1 coll = Step.next l2 coll) :
    ∃ status, bodyField req.body "status" = some status ∧ statusInEnum status := by
  unfold Orders.statusIsValid at h
  cases hb : bodyField req.body "status" with
  | none => simp [hb] at h
  | some status =>
    refine ⟨status, rfl, ?_⟩
    cases status with
    | str t =>
      by_cases hc : (t = "pending" ∨ t = "preparing") ∨ t = "out-for-delivery" ∨ t = "delivered"
      · rcases hc with (rfl | rfl) | rfl | rfl
        · exact Or.inl rfl
        · exact Or.inr (Or.inl rfl)
        · exact Or.inr (Or.inr (Or.inl rfl))
        · exact Or.inr (Or.inr (Or.inr rfl))
      · simp only [not_or] at hc
        simp [hb, JsVal.strictEqStr, hc.1.1, hc.1.2, hc.2.1, hc.2.2] at h
    | _ => simp [hb, JsVal.strictEqStr] at h

/-- An order of the collection left by `create` is an old order, or carries
the status and the dishes read from the body. -/
theorem order_create_mem (req : Request) (locals : Option Nat) (orders : List Order)
    (o : Order) (ho : o ∈ (Orders.create req locals orders).coll) :
    o ∈ orders ∨ (bodyField req.body "status" = some o.status ∧
      bodyField req.body "dishes" = some o.dishes) := by
  have hcoll : (Orders.create req locals orders).coll = orders ∨
      ∃ order, (bodyField req.body "status" = some order.status ∧
        bodyField req.body "dishes" = some order.dishes) ∧
        (Orders.create req locals orders).coll = orders ++ [order] := by
    unfold Orders.create
    split
    · rename_i h1 h2 h3 h4
      exact Or.inr ⟨_, ⟨h3, h4⟩, rfl⟩
    · exact Or.inl rfl
  rcases hcoll with hc | ⟨order, hp, hc⟩
  · exact Or.inl (hc ▸ ho)
  · rw [hc, List.mem_append, List.mem_singleton] at ho
    rcases ho with ho | rfl
    · exact Or.inl ho
    · exact Or.inr hp

/-- An order of the collection left by `update` is an old order, or carries
the status and the dishes read from the body, and that status is not
"delivered". -/
theorem order_update_mem (req : Request) (locals : Option Nat) (orders : List Order)
    (o : Order) (ho : o ∈ (Orders.update req locals orders).coll) :
    o ∈ orders ∨ (bodyField req.body "status" = some o.status ∧
      bodyField req.body "dishes" = some o.dishes ∧
      o.status.strictEqStr "delivered" = false) := by
  have hcoll : (Orders.update req locals orders).coll = orders ∨
      ∃ i order, (bodyField req.body "status" = some order.status ∧
        bodyField req.body "dishes" = some order.dishes ∧
        order.status.strictEqStr "delivered" = false) ∧
        (Orders.update req locals orders).coll = modifyAt (fun _ => order) i orders := by
    unfold Orders.update
    split
    · rename_i h0 h1 h2 h3 h4
      split
      · split <;> exact Or.inl rfl
      · split
        · exact Or.inl rfl
        · rename_i hnd
          split
          · exact Or.inl rfl
          · split
            · exact Or.inl rfl
            · exact Or.inr ⟨_, _, ⟨h3, h4, by simpa using hnd⟩, rfl⟩
    · exact Or.inl rfl
  rcases hcoll with hc | ⟨i, order, hp, hc⟩
  · exact Or.inl (hc ▸ ho)
  · rw [hc] at ho
    rcases mem_modifyAt _ _ _ _ ho with ho | ⟨b, -, rfl⟩
    · exact Or.inl ho
    · exact Or.inr hp

/-- The search of `destroy` rewrites ids only: every order it leaves has the
deliverTo, mobileNumber, status and dishes of an order of the collection. -/
theorem destroyFindIndex_mem (orderId : String) (orders : List Order) (o : Order)
    (ho : o ∈ (Orders.destroyFindIndex orderId orders).1) :
    ∃ o1 ∈ orders, o.deliverTo = o1.deliverTo ∧ o.mobileNumber = o1.mobileNumber ∧
      o.status = o1.status ∧ o.dishes = o1.dishes := by
  induction orders with
  | nil => simp [Orders.destroyFindIndex] at ho
  | cons a rest ih =>
    unfold Orders.destroyFindIndex at ho
    by_cases ht : (JsVal.str orderId).truthy = true
    · simp only [ht, if_true, List.mem_cons] at ho
      rcases ho with rfl | ho
      · exact ⟨a, by simp, rfl, rfl, rfl, rfl⟩
      · exact ⟨o, by simp [ho], rfl, rfl, rfl, rfl⟩
    · simp only [ht, Bool.false_eq_true, if_false, List.mem_cons] at ho
      rcases ho with rfl | ho
      · exact ⟨a, by simp, rfl, rfl, rfl, rfl⟩
      · obtain ⟨o1, h1, hrest⟩ := ih ho
        exact ⟨o1, by simp [h1], hrest⟩

/-- An order of the collection left by `destroy` has the deliverTo,
mobileNumber, status and dishes of an order of the collection before. -/
theorem order_destroy_mem (req : Request) (locals : Option Nat) (orders : List Order)
    (o : Order) (ho : o ∈ (Orders.destroy req locals orders).coll) :
    ∃ o1 ∈ orders, o.deliverTo = o1.deliverTo ∧ o.mobileNumber = o1.mobileNumber ∧
      o.status = o1.status ∧ o.dishes = o1.dishes := by
  have hcoll : (Orders.destroy req locals orders).coll
        = (Orders.destroyFindIndex req.param orders).1 ∨
      ∃ i, (Orders.destroy req locals orders).coll
        = (Orders.destroyFindIndex req.param orders).1.eraseIdx i := by
    unfold Orders.destroy
    split
    · rename_i heq
      rw [heq]
      exact Or.inl rfl
    · rename_i heq
      rw [heq]
      split
      · exact Or.inl rfl
      · split
        · exact Or.inr ⟨_, rfl⟩
        · exact Or.inl rfl
  rcases hcoll with hc | ⟨i, hc⟩
  · exact destroyFindIndex_mem _ _ _ (hc ▸ ho)
  · rw [hc] at ho
    exact destroyFindIndex_mem _ _ _ (List.mem_of_mem_eraseIdx ho)

/-- C8: if every order of the collection has well-formed dishes (a non-empty
sequence whose every item has a quantity that is an integer greater than 0),
then so has every order of the collection left by the order create, update
and delete chains, on any request and whatever the outcome. -/
theorem order_dishes_stay_well_formed (req : Request) (orders : List Order)
    (h : ∀ o ∈ orders, dishesWellFormed o.dishes) :
    (∀ o ∈ (runChain Orders.createChain req none orders).coll, dishesWellFormed o.dishes) ∧
    (∀ o ∈ (runChain Orders.updateChain req none orders).coll, dishesWellFormed o.dishes) ∧
    (∀ o ∈ (runChain Orders.deleteChain req none orders).coll, dishesWellFormed o.dishes) := by
  refine ⟨?_, ?_, ?_⟩
  · refine runChain_validators_coll _ Orders.create order_create_validators
      (fun c => ∀ o ∈ c, dishesWellFormed o.dishes) req none orders h ?_
    intro l1 hall o ho
    obtain ⟨a, b, hvalid⟩ := hall Orders.dishesIsValid (by simp)
    obtain ⟨dishes, hd, hwf⟩ := order_dishesIsValid_next hvalid
    rcases order_create_mem req l1 orders o ho with ho | ⟨-, ho⟩
    · exact h o ho
    · rw [hd, Option.some.injEq] at ho
      exact ho ▸ hwf
  · refine runChain_validators_coll _ Orders.update order_update_validators
      (fun c => ∀ o ∈ c, dishesWellFormed o.dishes) req none orders h ?_
    intro l1 hall o ho
    obtain ⟨a, b, hvalid⟩ := hall Orders.dishesIsValid (by simp)
    obtain ⟨dishes, hd, hwf⟩ := order_dishesIsValid_next hvalid
    rcases order_update_mem req l1 orders o ho with ho | ⟨-, ho, -⟩
    · exact h o ho
    · rw [hd, Option.some.injEq] at ho
      exact ho ▸ hwf
  · refine runChain_validators_coll [Orders.orderExists] Orders.destroy
      (by intro m hm; simp only [List.mem_singleton] at hm; subst hm
          exact order_orderExists_validator)
      (fun c => ∀ o ∈ c, dishesWellFormed o.dishes) req none orders h ?_
    intro l1 _ o ho
    obtain ⟨o1, h1, -, -, -, hdishes⟩ := order_destroy_mem req l1 orders o ho
    rw [hdishes]
    exact h o1 h1

/-- The dishes of a sample order are well formed. -/
theorem sampleOrder_dishesWellFormed (id status : String) :
    dishesWellFormed (sampleOrder id status).dishes :=
  ⟨[lineItem "d1" 1], rfl, by simp, by
    intro item hitem
    rw [List.mem_singleton] at hitem
    subst hitem
    exact ⟨JsVal.num (1 : ℕ), rfl, 1, by decide, rfl⟩⟩

/-- C8 at a concrete collection and request: two stored orders, and a valid
update payload sent to `/orders/2`. -/
theorem order_dishes_stay_well_formed_witness :
    (∀ o ∈ [sampleOrder "1" "preparing", sampleOrder "2" "pending"],
      dishesWellFormed o.dishes) ∧
    (∀ o ∈ (runChain Orders.createChain (mkRequest (orderUpdateBody "pending") "2") none
        [sampleOrder "1" "preparing", sampleOrder "2" "pending"]).coll,
      dishesWellFormed o.dishes) ∧
    (∀ o ∈ (runChain Orders.updateChain (mkRequest (orderUpdateBody "pending") "2") none
        [sampleOrder "1" "preparing", sampleOrder "2" "pending"]).coll,
      dishesWellFormed o.dishes) ∧
    (∀ o ∈ (runChain Orders.deleteChain (mkRequest (orderUpdateBody "pending") "2") none
        [sampleOrder "1" "preparing", sampleOrder "2" "pending"]).coll,
      dishesWellFormed o.dishes) :=
  have h : ∀ o ∈ [sampleOrder "1" "preparing", sampleOrder "2" "pending"],
      dishesWellFormed o.dishes := by
    intro o ho
    simp only [List.mem_cons, List.mem_singleton, List.not_mem_nil, or_false] at ho
    rcases ho with rfl | rfl
    · exact sampleOrder_dishesWellFormed _ _
    · exact sampleOrder_dishesWellFormed _ _
  ⟨h, order_dishes_stay_well_formed (mkRequest (orderUpdateBody "pending") "2")
    [sampleOrder "1" "preparing", sampleOrder "2" "pending"] h⟩

/-! ## Order status -/

/-- The value `undefined` is none of the four order states. -/
theorem not_statusInEnum_undefined : ¬ statusInEnum JsVal.undefined := by
  rintro (h | h | h | h) <;> cases h

/-- C9 (counterexample): on an empty collection, the order create chain
accepts a payload without `status`, answers 201 and stores an order whose
status is `undefined`, which is none of pending, preparing, out-for-delivery,
delivered. -/
theorem create_stores_order_without_status :
    (∀ o ∈ ([] : List Order), statusInEnum o.status) ∧
    runChain Orders.createChain (mkRequest orderCreateBodyNoStatus "") none []
      = Step.respond 201
          (Body.record
            { id := "new", deliverTo := .str "1600 Pennsylvania Avenue",
              mobileNumber := .str "(202) 456-1111", status := .undefined,
              dishes := .arr [lineItem "d2" 2] })
          [{ id := "new", deliverTo := .str "1600 Pennsylvania Avenue",
             mobileNumber := .str "(202) 456-1111", status := .undefined,
             dishes := .arr [lineItem "d2" 2] }] ∧
    ¬ ∀ o ∈ (runChain Orders.createChain (mkRequest orderCreateBodyNoStatus "") none
        []).coll, statusInEnum o.status := by
  refine ⟨by simp, rfl, ?_⟩
  intro hall
  exact not_statusInEnum_undefined
    (hall { id := "new", deliverTo := .str "1600 Pennsylvania Avenue",
            mobileNumber := .str "(202) 456-1111", status := .undefined,
            dishes := .arr [lineItem "d2" 2] }
      (by
        have hrun : (runChain Orders.createChain (mkRequest orderCreateBodyNoStatus "") none
            []).coll
            = [{ id := "new", deliverTo := .str "1600 Pennsylvania Avenue",
                 mobileNumber := .str "(202) 456-1111", status := .undefined,
                 dishes := .arr [lineItem "d2" 2] }] := rfl
        rw [hrun]
        exact List.mem_singleton.mpr rfl))

/-- C9 (amended): if every order of the collection has its status among the
four order states, then so has every order of the collection left by the
order update chain, on any request; and so has every order of the collection
left by the order create chain when the status submitted in the payload is
one of the four states (create stores the submitted status unchecked). -/
theorem order_status_stays_in_enum (req : Request) (orders : List Order)
    (h : ∀ o ∈ orders, statusInEnum o.status) :
    (∀ o ∈ (runChain Orders.updateChain req none orders).coll, statusInEnum o.status) ∧
    (∀ status, bodyField req.body "status" = some status → statusInEnum status →
      ∀ o ∈ (runChain Orders.createChain req none orders).coll, statusInEnum o.status) := by
  refine ⟨?_, ?_⟩
  · refine runChain_validators_coll _ Orders.update order_update_validators
      (fun c => ∀ o ∈ c, statusInEnum o.status) req none orders h ?_
    intro l1 hall o ho
    obtain ⟨a, b, hvalid⟩ := hall Orders.statusIsValid (by simp)
    obtain ⟨status, hs, henum⟩ := order_statusIsValid_next hvalid
    rcases order_update_mem req l1 orders o ho with ho | ⟨ho, -, -⟩
    · exact h o ho
    · rw [hs, Option.some.injEq] at ho
      exact ho ▸ henum
  · intro status hs henum
    refine runChain_validators_coll _ Orders.create order_create_validators
      (fun c => ∀ o ∈ c, statusInEnum o.status) req none orders h ?_
    intro l1 _ o ho
    rcases order_create_mem req l1 orders o ho with ho | ⟨ho, -⟩
    · exact h o ho
    · rw [hs, Option.some.injEq] at ho
      exact ho ▸ henum

/-- C9 (amended) at a concrete collection and request: one pending order and
a payload of status "preparing". -/
theorem order_status_stays_in_enum_witness :
    (∀ o ∈ [sampleOrder "1" "pending"], statusInEnum o.status) ∧
    (∀ o ∈ (runChain Orders.updateChain (mkRequest (orderUpdateBody "preparing") "1") none
        [sampleOrder "1" "pending"]).coll, statusInEnum o.status) ∧
    (∀ o ∈ (runChain Orders.createChain (mkRequest (orderUpdateBody "preparing") "1") none
        [sampleOrder "1" "pending"]).coll, statusInEnum o.status) :=
  have h : ∀ o ∈ [sampleOrder "1" "pending"], statusInEnum o.status := by
    intro o ho
    rw [List.mem_singleton] at ho
    subst ho
    exact Or.inl rfl
  ⟨h, (order_status_stays_in_enum (mkRequest (orderUpdateBody "preparing") "1")
        [sampleOrder "1" "pending"] h).1,
      (order_status_stays_in_enum (mkRequest (orderUpdateBody "preparing") "1")
        [sampleOrder "1" "pending"] h).2 (.str "preparing") rfl (Or.inr (Or.inl rfl))⟩

/-! ## Dish creation with a missing field -/

/-- When the payload of a dish creation reads as `name`, `description`,
`price`, `image_url` (an absent field reads as `undefined`) and at least one
of them is falsy, the dish create chain fails with 400 and the message
"Dish must include a f", where `f` is the first falsy field in the order
name, description, price, image_url, and the collection is unchanged. -/
theorem dish_create_missing_field (req : Request) (dishes : List Dish)
    (name description price image_url : JsVal)
    (hname : bodyField req.body "name" = some name)
    (hdescription : bodyField req.body "description" = some description)
    (hprice : bodyField req.body "price" = some price)
    (himage : bodyField req.body "image_url" = some image_url)
    (hmissing : name.truthy = false ∨ description.truthy = false ∨
      price.truthy = false ∨ image_url.truthy = false) :
    ∃ f, runChain Dishes.createChain req none dishes
        = Step.error 400 ("Dish must include a " ++ f) dishes ∧
      ((f = "name" ∧ name.truthy = false) ∨
       (f = "description" ∧ name.truthy = true ∧ description.truthy = false) ∨
       (f = "price" ∧ name.truthy = true ∧ description.truthy = true ∧
          price.truthy = false) ∨
       (f = "image_url" ∧ name.truthy = true ∧ description.truthy = true ∧
          price.truthy = true ∧ image_url.truthy = false)) := by
  by_cases h1 : name.truthy = true
  · have s1 : Dishes.bodyDataHas "name" req none dishes = Step.next none dishes := by
      simp [Dishes.bodyDataHas, hname, h1]
    by_cases h2 : description.truthy = true
    · have s2 : Dishes.bodyDataHas "description" req none dishes
          = Step.next none dishes := by
        simp [Dishes.bodyDataHas, hdescription, h2]
      by_cases h3 : price.truthy = true
      · have s3 : Dishes.bodyDataHas "price" req none dishes = Step.next none dishes := by
          simp [Dishes.bodyDataHas, hprice, h3]
        have h4 : image_url.truthy = false := by
          rcases hmissing with h | h | h | h
          · rw [h1] at h; cases h
          · rw [h2] at h; cases h
          · rw [h3] at h; cases h
          · exact h
        refine ⟨"image_url", ?_, Or.inr (Or.inr (Or.inr ⟨rfl, h1, h2, h3, h4⟩))⟩
        rw [Dishes.createChain, runChain_cons_next s1, runChain_cons_next s2,
          runChain_cons_next s3]
        exact runChain_cons_error (by simp [Dishes.bodyDataHas, himage, h4])
      · have h3f : price.truthy = false := by simpa using h3
        refine ⟨"price", ?_, Or.inr (Or.inr (Or.inl ⟨rfl, h1, h2, h3f⟩))⟩
        rw [Dishes.createChain, runChain_cons_next s1, runChain_cons_next s2]
        exact runChain_cons_error (by simp [Dishes.bodyDataHas, hprice, h3f])
    · have h2f : description.truthy = false := by simpa using h2
      refine ⟨"description", ?_, Or.inr (Or.inl ⟨rfl, h1, h2f⟩)⟩
      rw [Dishes.createChain, runChain_cons_next s1]
      exact runChain_cons_error (by simp [Dishes.bodyDataHas, hdescription, h2f])
  · have h1f : name.truthy = false := by simpa using h1
    refine ⟨"name", ?_, Or.inl ⟨rfl, h1f⟩⟩
    rw [Dishes.createChain]
    exact runChain_cons_error (by simp [Dishes.bodyDataHas, hname, h1f])

/-- A readable payload with a missing field, at a concrete request: the
payload has a name and a price, an empty description and no image_url; the
field named is `description`. -/
theorem dish_create_missing_field_witness :
    ∃ f, runChain Dishes.createChain (mkRequest dishBodyNoDescription "") none
          [sampleDish "1" 10]
        = Step.error 400 ("Dish must include a " ++ f) [sampleDish "1" 10] ∧
      ((f = "name" ∧ (JsVal.str "Dolcelatte and chickpea spaghetti").truthy = false) ∨
       (f = "description" ∧ (JsVal.str "Dolcelatte and chickpea spaghetti").truthy = true ∧
          (JsVal.str "").truthy = false) ∨
       (f = "price" ∧ (JsVal.str "Dolcelatte and chickpea spaghetti").truthy = true ∧
          (JsVal.str "").truthy = true ∧ (JsVal.num 19).truthy = false) ∨
       (f = "image_url" ∧ (JsVal.str "Dolcelatte and chickpea spaghetti").truthy = true ∧
          (JsVal.str "").truthy = true ∧ (JsVal.num 19).truthy = true ∧
          JsVal.undefined.truthy = false)) :=
  dish_create_missing_field (mkRequest dishBodyNoDescription "") [sampleDish "1" 10]
    (.str "Dolcelatte and chickpea spaghetti") (.str "") (.num 19) .undefined
    rfl rfl rfl rfl (Or.inr (Or.inl rfl))

/-- C10 (code at the failing input): a dish creation with the body
`{ "data": null }`, a payload in which name, description, price and
image_url are all absent.  The default of `const { data = {} } = req.body`
applies to `undefined` only, so the first presence stage reads a property of
`null` and throws: the chain does not end in 400 "Dish must include a
name". -/
theorem dish_create_null_payload_throws :
    bodyData (JsVal.obj [("data", .null)]) = some JsVal.null ∧
    bodyField (JsVal.obj [("data", .null)]) "name" = none ∧
    Dishes.bodyDataHas "name" (mkRequest (.obj [("data", .null)]) "") none []
      = Step.throw [] ∧
    runChain Dishes.createChain (mkRequest (.obj [("data", .null)]) "") none []
      = Step.throw [] := by
  exact ⟨rfl, rfl, rfl, rfl⟩

/-! ## The validators of the dish chains, stage by stage -/

/-- A non-empty string has a non-zero length. -/
theorem lengthTruthy_str (s : String) (h : s ≠ "") : lengthTruthy (JsVal.str s) = true := by
  have hdata : s.data ≠ [] := fun hd => h (String.ext_iff.mpr hd)
  obtain ⟨c, cs, hcs⟩ := List.exists_cons_of_ne_nil hdata
  have hpos : 0 < JsVal.utf16Length s := by
    unfold JsVal.utf16Length
    rw [hcs, List.map_cons, List.sum_cons]
    split <;> omega
  simp only [lengthTruthy, getProp, if_true, JsVal.truthy, decide_eq_true_eq]
  exact_mod_cast hpos.ne'

/-- A positive integer is truthy and passes the test of `pricePropertyIsValid`. -/
theorem positiveInteger_accepted (price : JsVal) (h : positiveInteger price) :
    price.truthy = true ∧ Dishes.priceIsInvalid price = some false := by
  obtain ⟨n, hn, rfl⟩ := h
  have hq : (0 : ℚ) < (n : ℚ) := by exact_mod_cast hn
  refine ⟨?_, ?_⟩
  · simp only [JsVal.truthy, decide_eq_true_eq]
    exact hq.ne'
  · simp only [Dishes.priceIsInvalid, Option.some.injEq, JsVal.isInteger,
      Bool.or_eq_false_iff, decide_eq_false_iff_not, not_le, Bool.not_eq_false',
      decide_eq_true_eq]
    exact ⟨hq, Rat.den_natCast n⟩

/-- A presence stage on a readable field: `next()` when the field is truthy,
otherwise 400 naming the field. -/
theorem dish_bodyDataHas_eval (req : Request) (locals : Option Nat) (dishes : List Dish)
    (propertyName : String) (v : JsVal) (h : bodyField req.body propertyName = some v) :
    Dishes.bodyDataHas propertyName req locals dishes =
      if v.truthy = true then Step.next locals dishes
      else Step.error 400 ("Dish must include a " ++ propertyName) dishes := by
  simp only [Dishes.bodyDataHas, h]

/-- A truthy value has a readable `length`. -/
theorem getProp_length_of_truthy (v : JsVal) (h : v.truthy = true) :
    ∃ len, getProp v "length" = some len := by
  cases v <;> simp_all [getProp, JsVal.truthy]

/-- The stage `namePropertyIsValid` on a truthy name. -/
theorem dish_namePropertyIsValid_eval (req : Request) (locals : Option Nat)
    (dishes : List Dish) (v : JsVal) (h : bodyField req.body "name" = some v)
    (hv : v.truthy = true) :
    Dishes.namePropertyIsValid req locals dishes =
      if lengthTruthy v = true then Step.next locals dishes
      else Step.error 400 "Dish must include a name" dishes := by
  obtain ⟨len, hlen⟩ := getProp_length_of_truthy v hv
  simp only [Dishes.namePropertyIsValid, h, lengthTruthy, hlen]

/-- The stage `descriptionPropertyIsValid` on a truthy description. -/
theorem dish_descriptionPropertyIsValid_eval (req : Request) (locals : Option Nat)
    (dishes : List Dish) (v : JsVal) (h : bodyField req.body "description" = some v)
    (hv : v.truthy = true) :
    Dishes.descriptionPropertyIsValid req locals dishes =
      if lengthTruthy v = true then Step.next locals dishes
      else Step.error 400 "Dish must include a description" dishes := by
  obtain ⟨len, hlen⟩ := getProp_length_of_truthy v hv
  simp only [Dishes.descriptionPropertyIsValid, h, lengthTruthy, hlen]

/-- The stage `imageUrlPropertyIsValid` on a truthy image_url. -/
theorem dish_imageUrlPropertyIsValid_eval (req : Request) (locals : Option Nat)
    (dishes : List Dish) (v : JsVal) (h : bodyField req.body "image_url" = some v)
    (hv : v.truthy = true) :
    Dishes.imageUrlPropertyIsValid req locals dishes =
      if lengthTruthy v = true then Step.next locals dishes
      else Step.error 400 "Dish must include a image_url" dishes := by
  obtain ⟨len, hlen⟩ := getProp_length_of_truthy v hv
  simp only [Dishes.imageUrlPropertyIsValid, h, lengthTruthy, hlen]

/-- The stage `pricePropertyIsValid` on a readable price. -/
theorem dish_pricePropertyIsValid_eval (req : Request) (locals : Option Nat)
    (dishes : List Dish) (v : JsVal) (h : bodyField req.body "price" = some v) :
    Dishes.pricePropertyIsValid req locals dishes =
      match Dishes.priceIsInvalid v with
      | none => Step.throw dishes
      | some true =>
        Step.error 400 "Dish must have a price that is an integer greater than 0" dishes
      | some false => Step.next locals dishes := by
  simp only [Dishes.pricePropertyIsValid, h]

/-- A stage that calls `next()` when `b` holds and fails with 400 otherwise
lets the chain continue exactly when `b` holds. -/
theorem runChain_cons_if {ρ : Type} {m : Middleware ρ} {rest : List (Middleware ρ)}
    {req : Request} {locals : Option Nat} {coll : List ρ} {b : Bool} {message : String}
    (h : m req locals coll =
      if b = true then Step.next locals coll else Step.error 400 message coll) :
    runChain (m :: rest) req locals coll =
      if b = true then runChain rest req locals coll else Step.error 400 message coll := by
  cases b
  · exact runChain_cons_error (by simpa using h)
  · exact runChain_cons_next (by simpa using h)

/-- On a valid dish payload the eight validators of the dish chains all call
`next()`: the chain continues with what follows them. -/
theorem dish_validators_pass (req : Request) (locals : Option Nat) (dishes : List Dish)
    (rest : List (Middleware Dish)) (name description price image_url : JsVal)
    (hname : bodyField req.body "name" = some name)
    (hdescription : bodyField req.body "description" = some description)
    (hprice : bodyField req.body "price" = some price)
    (himage : bodyField req.body "image_url" = some image_url)
    (hvalid : dishPayloadValid name description price image_url) :
    runChain (Dishes.bodyDataHas "name" :: Dishes.bodyDataHas "description" ::
        Dishes.bodyDataHas "price" :: Dishes.bodyDataHas "image_url" ::
        Dishes.namePropertyIsValid :: Dishes.descriptionPropertyIsValid ::
        Dishes.pricePropertyIsValid :: Dishes.imageUrlPropertyIsValid :: rest)
        req locals dishes
      = runChain rest req locals dishes := by
  obtain ⟨⟨hn, hnl⟩, ⟨hd, hdl⟩, hpos, ⟨hi, hil⟩⟩ := hvalid
  obtain ⟨hp, hpv⟩ := positiveInteger_accepted price hpos
  rw [runChain_cons_next (by rw [dish_bodyDataHas_eval _ _ _ _ _ hname, if_pos hn]),
    runChain_cons_next (by rw [dish_bodyDataHas_eval _ _ _ _ _ hdescription, if_pos hd]),
    runChain_cons_next (by rw [dish_bodyDataHas_eval _ _ _ _ _ hprice, if_pos hp]),
    runChain_cons_next (by rw [dish_bodyDataHas_eval _ _ _ _ _ himage, if_pos hi]),
    runChain_cons_next (by rw [dish_namePropertyIsValid_eval _ _ _ _ hname hn, if_pos hnl]),
    runChain_cons_next
      (by rw [dish_descriptionPropertyIsValid_eval _ _ _ _ hdescription hd, if_pos hdl]),
    runChain_cons_next (by rw [dish_pricePropertyIsValid_eval _ _ _ _ hprice, hpv]),
    runChain_cons_next (by rw [dish_imageUrlPropertyIsValid_eval _ _ _ _ himage hi, if_pos hil])]

/-- On a readable dish payload that is not valid, the eight validators of the
dish chains end the chain with status 400, or with the exception raised by
`price <= 0` on a price that cannot be converted to a primitive; the
collection is untouched. -/
theorem dish_validators_fail (req : Request) (locals : Option Nat) (dishes : List Dish)
    (rest : List (Middleware Dish)) (name description price image_url : JsVal)
    (hname : bodyField req.body "name" = some name)
    (hdescription : bodyField req.body "description" = some description)
    (hprice : bodyField req.body "price" = some price)
    (himage : bodyField req.body "image_url" = some image_url)
    (hinvalid : ¬ dishPayloadValid name description price image_url) :
    (∃ message, runChain (Dishes.bodyDataHas "name" :: Dishes.bodyDataHas "description" ::
        Dishes.bodyDataHas "price" :: Dishes.bodyDataHas "image_url" ::
        Dishes.namePropertyIsValid :: Dishes.descriptionPropertyIsValid ::
        Dishes.pricePropertyIsValid :: Dishes.imageUrlPropertyIsValid :: rest)
        req locals dishes
      = Step.error 400 message dishes) ∨
    (Dishes.priceIsInvalid price = none ∧
      runChain (Dishes.bodyDataHas "name" :: Dishes.bodyDataHas "description" ::
        Dishes.bodyDataHas "price" :: Dishes.bodyDataHas "image_url" ::
        Dishes.namePropertyIsValid :: Dishes.descriptionPropertyIsValid ::
        Dishes.pricePropertyIsValid :: Dishes.imageUrlPropertyIsValid :: rest)
        req locals dishes
      = Step.throw dishes) := by
  rw [runChain_cons_if (dish_bodyDataHas_eval _ _ _ _ _ hname)]
  by_cases hn : name.truthy = true
  swap
  · exact Or.inl ⟨_, if_neg hn⟩
  rw [if_pos hn, runChain_cons_if (dish_bodyDataHas_eval _ _ _ _ _ hdescription)]
  by_cases hd : description.truthy = true
  swap
  · exact Or.inl ⟨_, if_neg hd⟩
  rw [if_pos hd, runChain_cons_if (dish_bodyDataHas_eval _ _ _ _ _ hprice)]
  by_cases hp : price.truthy = true
  swap
  · exact Or.inl ⟨_, if_neg hp⟩
  rw [if_pos hp, runChain_cons_if (dish_bodyDataHas_eval _ _ _ _ _ himage)]
  by_cases hi : image_url.truthy = true
  swap
  · exact Or.inl ⟨_, if_neg hi⟩
  rw [if_pos hi, runChain_cons_if (dish_namePropertyIsValid_eval _ _ _ _ hname hn)]
  by_cases hnl : lengthTruthy name = true
  swap
  · exact Or.inl ⟨_, if_neg hnl⟩
  rw [if_pos hnl,
    runChain_cons_if (dish_descriptionPropertyIsValid_eval _ _ _ _ hdescription hd)]
  by_cases hdl : lengthTruthy description = true
  swap
  · exact Or.inl ⟨_, if_neg hdl⟩
  rw [if_pos hdl]
  cases hpv : Dishes.priceIsInvalid price with
  | none =>
    exact Or.inr ⟨rfl, runChain_cons_throw
      (by rw [dish_pricePropertyIsValid_eval _ _ _ _ hprice, hpv])⟩
  | some invalid =>
    cases invalid with
    | true =>
      exact Or.inl ⟨_, runChain_cons_error
        (by rw [dish_pricePropertyIsValid_eval _ _ _ _ hprice, hpv])⟩
    | false =>
      rw [runChain_cons_next (by rw [dish_pricePropertyIsValid_eval _ _ _ _ hprice, hpv]),
        runChain_cons_if (dish_imageUrlPropertyIsValid_eval _ _ _ _ himage hi)]
      by_cases hil : lengthTruthy image_url = true
      swap
      · exact Or.inl ⟨_, if_neg hil⟩
      exact absurd ⟨⟨hn, hnl⟩, ⟨hd, hdl⟩,
        positiveInteger_of_price_valid price hpv, ⟨hi, hil⟩⟩ hinvalid

/-! ## Dish price, creation and reading -/

/-- When a dish has the route id, `dishExists` finds one and calls `next()`. -/
theorem dish_dishExists_found (req : Request) (locals : Option Nat) (dishes : List Dish)
    (h : ∃ d ∈ dishes, d.id = req.param) :
    ∃ i, Dishes.dishExists req locals dishes = Step.next (some i) dishes := by
  obtain ⟨i, hi⟩ := findIndex_of_exists (fun d : Dish => decide (d.id = req.param))
    dishes (by obtain ⟨d, hd, hid⟩ := h; exact ⟨d, hd, by simp [hid]⟩)
  exact ⟨i, by simp only [Dishes.dishExists, hi]⟩

/-- The test of `pricePropertyIsValid` throws only on a price that cannot be
converted to a primitive. -/
theorem priceIsInvalid_none (price : JsVal) (h : Dishes.priceIsInvalid price = none) :
    toPrimitiveThrows price = true := by
  cases price <;> simp only [Dishes.priceIsInvalid] at h <;>
    first
      | cases h
      | (split at h
         · assumption
         · cases h)

/-- When the payload can be read and its price is not an integer greater
than 0 but can be converted to a primitive (zero, a negative or fractional
number, a string, a boolean, `null`, an absent price, an object without own
`toString`), the dish create chain fails with status 400, and so does the
dish update chain on the id of an existing dish; in both cases the collection
is unchanged. -/
theorem dish_convertible_price_rejected (req : Request) (dishes : List Dish)
    (name description price image_url : JsVal)
    (hname : bodyField req.body "name" = some name)
    (hdescription : bodyField req.body "description" = some description)
    (hprice : bodyField req.body "price" = some price)
    (himage : bodyField req.body "image_url" = some image_url)
    (hbad : ¬ positiveInteger price) (hconv : toPrimitiveThrows price = false) :
    (∃ message, runChain Dishes.createChain req none dishes
      = Step.error 400 message dishes) ∧
    ((∃ d ∈ dishes, d.id = req.param) →
      ∃ message, runChain Dishes.updateChain req none dishes
        = Step.error 400 message dishes) := by
  have hinvalid : ¬ dishPayloadValid name description price image_url :=
    fun hv => hbad hv.2.2.1
  have hnothrow : ¬ Dishes.priceIsInvalid price = none := by
    intro hnone
    rw [priceIsInvalid_none price hnone] at hconv
    cases hconv
  refine ⟨?_, ?_⟩
  · rcases dish_validators_fail req none dishes [Dishes.create] name description price
      image_url hname hdescription hprice himage hinvalid with h | ⟨hnone, -⟩
    · exact h
    · exact absurd hnone hnothrow
  · intro hex
    obtain ⟨i, hi⟩ := dish_dishExists_found req none dishes hex
    rcases dish_validators_fail req (some i) dishes [Dishes.update]
      name description price image_url hname hdescription hprice himage hinvalid
      with ⟨message, hrun⟩ | ⟨hnone, -⟩
    · exact ⟨message, by rw [Dishes.updateChain, runChain_cons_next hi]; exact hrun⟩
    · exact absurd hnone hnothrow

/-- The price of the request below is not an integer greater than 0. -/
theorem not_positiveInteger_obj (fields : List (String × JsVal)) :
    ¬ positiveInteger (JsVal.obj fields) := by
  rintro ⟨n, -, hn⟩
  cases hn

/-- C11 (code at the failing input): the payload is valid but for its price,
the object `{ "toString": 1 }`, which is not an integer greater than 0.  The
stage `pricePropertyIsValid` evaluates `price <= 0` before
`Number.isInteger(price)`; the comparison converts the object to a primitive
and throws, so neither the dish create chain nor the dish update chain on
the existing dish "1" ends in a 400. -/
theorem dish_price_object_throws :
    ¬ positiveInteger (JsVal.obj [("toString", .num 1)]) ∧
    runChain Dishes.createChain
        (mkRequest (dishBodyWithPrice (.obj [("toString", .num 1)])) "1") none
        [sampleDish "1" 10]
      = Step.throw [sampleDish "1" 10] ∧
    runChain Dishes.updateChain
        (mkRequest (dishBodyWithPrice (.obj [("toString", .num 1)])) "1") none
        [sampleDish "1" 10]
      = Step.throw [sampleDish "1" 10] := by
  exact ⟨not_positiveInteger_obj _, rfl, rfl⟩

/-- C12: for a payload whose name, description and image_url are non-empty
strings and whose price is an integer greater than 0, the dish create chain
answers 201 with the record made of the id returned by `nextId` and the four
payload values; the collection becomes the old one with that record appended,
and a subsequent list returns exactly that collection. -/
theorem dish_create_appends_record (req : Request) (dishes : List Dish)
    (name description image_url : String) (price : ℕ)
    (hname : bodyField req.body "name" = some (.str name))
    (hdescription : bodyField req.body "description" = some (.str description))
    (hprice : bodyField req.body "price" = some (.num price))
    (himage : bodyField req.body "image_url" = some (.str image_url))
    (hn : name ≠ "") (hd : description ≠ "") (hi : image_url ≠ "") (hp : 0 < price) :
    runChain Dishes.createChain req none dishes
      = Step.respond 201
          (Body.record { id := req.nextId, name := .str name, description := .str description,
                         price := .num price, image_url := .str image_url })
          (dishes ++ [{ id := req.nextId, name := .str name, description := .str description,
                        price := .num price, image_url := .str image_url }]) ∧
    ∀ (req2 : Request) (locals : Option Nat),
      Dishes.list req2 locals
          (dishes ++ [{ id := req.nextId, name := .str name, description := .str description,
                        price := .num price, image_url := .str image_url }])
        = Step.respond 200
            (Body.list (dishes ++ [{ id := req.nextId, name := .str name,
                                     description := .str description,
                                     price := .num price, image_url := .str image_url }]))
            (dishes ++ [{ id := req.nextId, name := .str name, description := .str description,
                          price := .num price, image_url := .str image_url }]) := by
  have hvalid : dishPayloadValid (.str name) (.str description) (.num price) (.str image_url) :=
    ⟨⟨by simp [JsVal.truthy, hn], lengthTruthy_str name hn⟩,
     ⟨by simp [JsVal.truthy, hd], lengthTruthy_str description hd⟩,
     ⟨price, hp, rfl⟩,
     ⟨by simp [JsVal.truthy, hi], lengthTruthy_str image_url hi⟩⟩
  refine ⟨?_, fun _ _ => rfl⟩
  rw [Dishes.createChain, dish_validators_pass req none dishes [Dishes.create] _ _ _ _
    hname hdescription hprice himage hvalid, runChain_singleton]
  simp only [Dishes.create, hname, hdescription, hprice, himage]

/-- C12 at a concrete request: a valid payload of price 7 on a collection
holding dish "1". -/
theorem dish_create_appends_record_witness :
    runChain Dishes.createChain (mkRequest (dishBody 7) "") none [sampleDish "1" 10]
      = Step.respond 201
          (Body.record { id := "new", name := .str "Dolcelatte and chickpea spaghetti",
                         description := .str "Spaghetti topped with a blend of dolcelatte",
                         price := .num (7 : ℕ),
                         image_url := .str "https://example.org/spaghetti.jpg" })
          ([sampleDish "1" 10] ++
            [{ id := "new", name := .str "Dolcelatte and chickpea spaghetti",
               description := .str "Spaghetti topped with a blend of dolcelatte",
               price := .num (7 : ℕ),
               image_url := .str "https://example.org/spaghetti.jpg" }]) :=
  (dish_create_appends_record (mkRequest (dishBody 7) "") [sampleDish "1" 10]
    "Dolcelatte and chickpea spaghetti" "Spaghetti topped with a blend of dolcelatte"
    "https://example.org/spaghetti.jpg" 7 rfl rfl rfl rfl
    (by decide) (by decide) (by decide) (by decide)).1

/-- A search `findIndex` without a hit: `find` returns nothing either. -/
theorem findIndex_eq_none {α : Type} (p : α → Bool) (l : List α)
    (h : findIndex p l = none) : l.find? p = none := by
  induction l with
  | nil => rfl
  | cons a l ih =>
    unfold findIndex at h
    by_cases ha : p a = true
    · simp [ha] at h
    · simp only [ha, Bool.false_eq_true, if_false, Option.map_eq_none'] at h
      simp [List.find?, ha, ih h]

/-- A search `findIndex` with a hit at `i`: the element at `i` is the one
`find` returns, the first that satisfies the test. -/
theorem findIndex_eq_some {α : Type} (p : α → Bool) (l : List α) (i : Nat)
    (h : findIndex p l = some i) :
    ∃ a, l.get? i = some a ∧ l.find? p = some a ∧ p a = true := by
  induction l generalizing i with
  | nil => simp [findIndex] at h
  | cons b l ih =>
    unfold findIndex at h
    by_cases hb : p b = true
    · simp only [hb, if_true, Option.some.injEq] at h
      subst h
      exact ⟨b, rfl, by simp [List.find?, hb], hb⟩
    · simp only [hb, Bool.false_eq_true, if_false, Option.map_eq_some'] at h
      obtain ⟨j, hj, rfl⟩ := h
      obtain ⟨a, ha, hfind, hpa⟩ := ih j hj
      exact ⟨a, by simpa using ha, by simp [List.find?, hb, hfind], hpa⟩

/-- The dish read chain returns the first dish with the route id, or fails
with 404 when there is none. -/
theorem dish_readChain_eq (req : Request) (dishes : List Dish) :
    runChain Dishes.readChain req none dishes =
      match dishes.find? (fun d => decide (d.id = req.param)) with
      | some dish => Step.respond 200 (Body.record dish) dishes
      | none => Step.error 404 ("Dish id not found: " ++ req.param) dishes := by
  cases h : findIndex (fun d : Dish => decide (d.id = req.param)) dishes with
  | none =>
    rw [findIndex_eq_none _ _ h, Dishes.readChain]
    exact runChain_cons_error (by simp only [Dishes.dishExists, h])
  | some i =>
    obtain ⟨a, ha, hfind, -⟩ := findIndex_eq_some _ _ _ h
    rw [hfind, Dishes.readChain,
      runChain_cons_next (show Dishes.dishExists req none dishes = Step.next (some i) dishes
        by simp only [Dishes.dishExists, h]),
      runChain_singleton]
    simp only [Dishes.read, Option.bind, ha]

/-- The order read chain returns the first order with the route id, or fails
with 404 when there is none. -/
theorem order_readChain_eq (req : Request) (orders : List Order) :
    runChain Orders.readChain req none orders =
      match orders.find? (fun o => decide (o.id = req.param)) with
      | some order => Step.respond 200 (Body.record order) orders
      | none => Step.error 404 ("Order id not found: " ++ req.param) orders := by
  cases h : findIndex (fun o : Order => decide (o.id = req.param)) orders with
  | none =>
    rw [findIndex_eq_none _ _ h, Orders.readChain]
    exact runChain_cons_error (by simp only [Orders.orderExists, h])
  | some i =>
    obtain ⟨a, ha, hfind, -⟩ := findIndex_eq_some _ _ _ h
    rw [hfind, Orders.readChain,
      runChain_cons_next (show Orders.orderExists req none orders = Step.next (some i) orders
        by simp only [Orders.orderExists, h]),
      runChain_singleton]
    simp only [Orders.read, Option.bind, ha]

/-- C13: the dish read chain fails with 404 "Dish id not found: id" exactly
when no dish has the route id, and otherwise answers with the first dish of
the collection whose id is the route id; the order read chain does the same
with "Order id not found: id". -/
theorem read_chain_found_or_404 (req : Request) (dishes : List Dish) (orders : List Order) :
    ((runChain Dishes.readChain req none dishes
        = Step.error 404 ("Dish id not found: " ++ req.param) dishes)
      ↔ ¬ ∃ d ∈ dishes, d.id = req.param) ∧
    (runChain Dishes.readChain req none dishes =
      match dishes.find? (fun d => decide (d.id = req.param)) with
      | some dish => Step.respond 200 (Body.record dish) dishes
      | none => Step.error 404 ("Dish id not found: " ++ req.param) dishes) ∧
    ((runChain Orders.readChain req none orders
        = Step.error 404 ("Order id not found: " ++ req.param) orders)
      ↔ ¬ ∃ o ∈ orders, o.id = req.param) ∧
    (runChain Orders.readChain req none orders =
      match orders.find? (fun o => decide (o.id = req.param)) with
      | some order => Step.respond 200 (Body.record order) orders
      | none => Step.error 404 ("Order id not found: " ++ req.param) orders) := by
  refine ⟨?_, dish_readChain_eq req dishes, ?_, order_readChain_eq req orders⟩
  · rw [dish_readChain_eq]
    cases hfind : dishes.find? (fun d => decide (d.id = req.param)) with
    | none =>
      simp only [true_iff]
      rintro ⟨d, hd, hid⟩
      have := List.find?_eq_none.mp hfind d hd
      simp [hid] at this
    | some dish =>
      have hmem := List.mem_of_find?_eq_some hfind
      have hp := List.find?_some hfind
      constructor
      · intro h
        cases h
      · intro h
        exact absurd ⟨dish, hmem, by simpa using hp⟩ h
  · rw [order_readChain_eq]
    cases hfind : orders.find? (fun o => decide (o.id = req.param)) with
    | none =>
      simp only [true_iff]
      rintro ⟨o, ho, hid⟩
      have := List.find?_eq_none.mp hfind o ho
      simp [hid] at this
    | some order =>
      have hmem := List.mem_of_find?_eq_some hfind
      have hp := List.find?_some hfind
      constructor
      · intro h
        cases h
      · intro h
        exact absurd ⟨order, hmem, by simpa using hp⟩ h

/-! ## Dish update -/

/-- An assignment through a reference keeps the length of the collection. -/
theorem length_modifyAt {α : Type} (f : α → α) (i : Nat) (l : List α) :
    (modifyAt f i l).length = l.length := by
  induction l generalizing i with
  | nil => simp [modifyAt]
  | cons a l ih =>
    cases i with
    | zero => rfl
    | succ i => simp [modifyAt, ih]

/-- An assignment through a reference changes the record at that position. -/
theorem get?_modifyAt_eq {α : Type} (f : α → α) (i : Nat) (l : List α) (a : α)
    (h : l.get? i = some a) : (modifyAt f i l).get? i = some (f a) := by
  induction l generalizing i with
  | nil => simp at h
  | cons b l ih =>
    cases i with
    | zero =>
      simp only [List.get?_cons_zero, Option.some.injEq] at h
      simp [modifyAt, h]
    | succ i =>
      simp only [List.get?_cons_succ] at h
      simpa [modifyAt] using ih i h

/-- An assignment through a reference leaves the other positions as they are. -/
theorem get?_modifyAt_ne {α : Type} (f : α → α) (i j : Nat) (l : List α) (h : j ≠ i) :
    (modifyAt f i l).get? j = l.get? j := by
  induction l generalizing i j with
  | nil => simp [modifyAt]
  | cons b l ih =>
    cases i with
    | zero =>
      cases j with
      | zero => exact absurd rfl h
      | succ j => rfl
    | succ i =>
      cases j with
      | zero => rfl
      | succ j =>
        simp only [modifyAt, List.get?_cons_succ]
        exact ih i j (fun hji => h (by rw [hji]))

/-- The test `v === s` holds exactly when `v` is the string `s`. -/
theorem strictEqStr_iff (v : JsVal) (s : String) :
    v.strictEqStr s = true ↔ v = JsVal.str s := by
  cases v <;> simp [JsVal.strictEqStr]

/-- When a dish with the route id exists and the payload is valid but carries
a truthy id that is not the route id, the dish update chain takes the id
mismatch branch: it fails with 400 and the message "Dish id does not match
route id. Dish: id, Route: dishId" when the id can be rendered, and throws
when it cannot; the collection is unchanged. -/
theorem dish_update_id_mismatch_run (req : Request) (dishes : List Dish)
    (id name description price image_url : JsVal)
    (hex : ∃ d ∈ dishes, d.id = req.param)
    (hid : bodyField req.body "id" = some id)
    (hname : bodyField req.body "name" = some name)
    (hdescription : bodyField req.body "description" = some description)
    (hprice : bodyField req.body "price" = some price)
    (himage : bodyField req.body "image_url" = some image_url)
    (hvalid : dishPayloadValid name description price image_url)
    (htruthy : id.truthy = true) (hdiff : id ≠ JsVal.str req.param) :
    runChain Dishes.updateChain req none dishes =
      match templateString req.numberToString id with
      | none => Step.throw dishes
      | some rendered =>
        Step.error 400
          ("Dish id does not match route id. Dish: " ++ rendered ++
            ", Route: " ++ req.param) dishes := by
  obtain ⟨i, hi⟩ := dish_dishExists_found req none dishes hex
  have hneq : id.strictEqStr req.param = false := by
    cases h : id.strictEqStr req.param with
    | false => rfl
    | true => exact absurd ((strictEqStr_iff id req.param).mp h) hdiff
  rw [Dishes.updateChain, runChain_cons_next hi,
    dish_validators_pass req (some i) dishes [Dishes.update] _ _ _ _
      hname hdescription hprice himage hvalid, runChain_singleton]
  simp only [Dishes.update, hid, hname, hdescription, hprice, himage, htruthy, hneq,
    Bool.not_false, Bool.and_self, if_true]

/-- C14 (code at the failing inputs): `PUT /dishes/1` on the existing dish
"1" with a valid payload whose id is the object `{ "toString": 1 }`, truthy
and different from the route id: the template literal of `update` converts
the id to a string and throws, so the chain does not end in a 400; the same
happens for the array `[{ "toString": 1 }]`.  With the id "9", or the array
`["a", null, ["b"]]`, the same branch answers 400 and names the id. -/
theorem dish_update_id_object_throws :
    runChain Dishes.updateChain
        (mkRequest (dishBodyWithId (.obj [("toString", .num 1)])) "1") none
        [sampleDish "1" 10]
      = Step.throw [sampleDish "1" 10] ∧
    runChain Dishes.updateChain
        (mkRequest (dishBodyWithId (.arr [.obj [("toString", .num 1)]])) "1") none
        [sampleDish "1" 10]
      = Step.throw [sampleDish "1" 10] ∧
    runChain Dishes.updateChain (mkRequest (dishBodyWithId (.str "9")) "1") none
        [sampleDish "1" 10]
      = Step.error 400 "Dish id does not match route id. Dish: 9, Route: 1"
          [sampleDish "1" 10] ∧
    runChain Dishes.updateChain
        (mkRequest (dishBodyWithId (.arr [.str "a", .null, .arr [.str "b"]])) "1") none
        [sampleDish "1" 10]
      = Step.error 400 "Dish id does not match route id. Dish: a,,b, Route: 1"
          [sampleDish "1" 10] := by
  exact ⟨rfl, rfl, rfl, rfl⟩

/-- C15: when a dish with the route id exists and the payload is valid with
an id that is absent, falsy or equal to the route id, the dish update chain
answers 200 with the found dish (the first with the route id) carrying the
payload's name, description, price and image_url and its own id; in the
collection that record stands where the found dish stood, every other
position is unchanged, and the length is unchanged. -/
theorem dish_update_overwrites_fields (req : Request) (dishes : List Dish)
    (id name description price image_url : JsVal)
    (hex : ∃ d ∈ dishes, d.id = req.param)
    (hid : bodyField req.body "id" = some id)
    (hname : bodyField req.body "name" = some name)
    (hdescription : bodyField req.body "description" = some description)
    (hprice : bodyField req.body "price" = some price)
    (himage : bodyField req.body "image_url" = some image_url)
    (hvalid : dishPayloadValid name description price image_url)
    (hmatch : id.truthy = false ∨ id = JsVal.str req.param) :
    ∃ (i : Nat) (dish : Dish) (coll : List Dish),
      dishes.find? (fun d => decide (d.id = req.param)) = some dish ∧
      dishes.get? i = some dish ∧
      runChain Dishes.updateChain req none dishes
        = Step.respond 200
            (Body.record { id := dish.id, name := name, description := description,
                           price := price, image_url := image_url }) coll ∧
      coll.length = dishes.length ∧
      coll.get? i = some { id := dish.id, name := name, description := description,
                           price := price, image_url := image_url } ∧
      ∀ j, j ≠ i → coll.get? j = dishes.get? j := by
  obtain ⟨i, hi⟩ := findIndex_of_exists (fun d : Dish => decide (d.id = req.param))
    dishes (by obtain ⟨d, hd, hdid⟩ := hex; exact ⟨d, hd, by simp [hdid]⟩)
  obtain ⟨dish, hget, hfind, -⟩ := findIndex_eq_some _ _ _ hi
  have hcond : (id.truthy && !id.strictEqStr req.param) = false := by
    rcases hmatch with h | h
    · simp [h]
    · simp [h, JsVal.strictEqStr]
  refine ⟨i, dish,
    modifyAt (fun _ => (⟨dish.id, name, description, price, image_url⟩ : Dish)) i dishes,
    hfind, hget, ?_, length_modifyAt _ _ _, get?_modifyAt_eq _ _ _ _ hget,
    fun j hj => get?_modifyAt_ne _ _ _ _ hj⟩
  rw [Dishes.updateChain,
    runChain_cons_next (show Dishes.dishExists req none dishes = Step.next (some i) dishes
      by simp only [Dishes.dishExists, hi]),
    dish_validators_pass req (some i) dishes [Dishes.update] _ _ _ _
      hname hdescription hprice himage hvalid, runChain_singleton]
  simp only [Dishes.update, hid, hname, hdescription, hprice, himage, hcond, hget,
    Bool.false_eq_true, if_false]

/-- C15 at a concrete request: `PUT /dishes/2` with a valid payload without
id, on a collection holding dishes "1" and "2". -/
theorem dish_update_overwrites_fields_witness :
    ∃ (i : Nat) (dish : Dish) (coll : List Dish),
      [sampleDish "1" 10, sampleDish "2" 12].find?
        (fun d => decide (d.id = (mkRequest (dishBody 7) "2").param)) = some dish ∧
      [sampleDish "1" 10, sampleDish "2" 12].get? i = some dish ∧
      runChain Dishes.updateChain (mkRequest (dishBody 7) "2") none
          [sampleDish "1" 10, sampleDish "2" 12]
        = Step.respond 200
            (Body.record { id := dish.id, name := .str "Dolcelatte and chickpea spaghetti",
                           description := .str "Spaghetti topped with a blend of dolcelatte",
                           price := .num (7 : ℕ),
                           image_url := .str "https://example.org/spaghetti.jpg" }) coll ∧
      coll.length = [sampleDish "1" 10, sampleDish "2" 12].length ∧
      coll.get? i = some { id := dish.id, name := .str "Dolcelatte and chickpea spaghetti",
                           description := .str "Spaghetti topped with a blend of dolcelatte",
                           price := .num (7 : ℕ),
                           image_url := .str "https://example.org/spaghetti.jpg" } ∧
      ∀ j, j ≠ i → coll.get? j = [sampleDish "1" 10, sampleDish "2" 12].get? j :=
  dish_update_overwrites_fields (mkRequest (dishBody 7) "2") [sampleDish "1" 10, sampleDish "2" 12]
    .undefined (.str "Dolcelatte and chickpea spaghetti")
    (.str "Spaghetti topped with a blend of dolcelatte") (.num (7 : ℕ))
    (.str "https://example.org/spaghetti.jpg")
    ⟨sampleDish "2" 12, by simp, rfl⟩ rfl rfl rfl rfl rfl
    ⟨⟨rfl, lengthTruthy_str _ (by decide)⟩, ⟨rfl, lengthTruthy_str _ (by decide)⟩,
      ⟨7, by decide, rfl⟩, ⟨rfl, lengthTruthy_str _ (by decide)⟩⟩
    (Or.inl rfl)

/-! ## The validators of the order chains, stage by stage -/

/-- A presence stage on a readable field: `next()` when the field is truthy,
otherwise 400 naming the field. -/
theorem order_bodyDataHas_eval (req : Request) (locals : Option Nat) (orders : List Order)
    (propertyName : String) (v : JsVal) (h : bodyField req.body propertyName = some v) :
    Orders.bodyDataHas propertyName req locals orders =
      if v.truthy = true then Step.next locals orders
      else Step.error 400 ("Order must include a " ++ propertyName) orders := by
  simp only [Orders.bodyDataHas, h]

/-- The stage `deliverToIsValid` on a truthy deliverTo. -/
theorem order_deliverToIsValid_eval (req : Request) (locals : Option Nat)
    (orders : List Order) (v : JsVal) (h : bodyField req.body "deliverTo" = some v)
    (hv : v.truthy = true) :
    Orders.deliverToIsValid req locals orders =
      if lengthTruthy v = true then Step.next locals orders
      else Step.error 400 "Order must include a deliverTo" orders := by
  obtain ⟨len, hlen⟩ := getProp_length_of_truthy v hv
  simp only [Orders.deliverToIsValid, h, lengthTruthy, hlen]

/-- The stage `mobileNumberIsValid` on a truthy mobileNumber. -/
theorem order_mobileNumberIsValid_eval (req : Request) (locals : Option Nat)
    (orders : List Order) (v : JsVal) (h : bodyField req.body "mobileNumber" = some v)
    (hv : v.truthy = true) :
    Orders.mobileNumberIsValid req locals orders =
      if lengthTruthy v = true then Step.next locals orders
      else Step.error 400 "Order must include a mobileNumber" orders := by
  obtain ⟨len, hlen⟩ := getProp_length_of_truthy v hv
  simp only [Orders.mobileNumberIsValid, h, lengthTruthy, hlen]

/-- The callback of `dishesIsValid` returns false on an item with an
acceptable quantity. -/
theorem invalidQuantity_of_acceptable (item : JsVal) (h : quantityAcceptable item) :
    Orders.invalidQuantity item = some false := by
  obtain ⟨quantity, hq, hpos⟩ := h
  obtain ⟨ht, hv⟩ := positiveInteger_accepted quantity hpos
  obtain ⟨n, hn, rfl⟩ := hpos
  simp only [Dishes.priceIsInvalid, Option.some.injEq, Bool.or_eq_false_iff,
    Bool.not_eq_false'] at hv
  simp only [Orders.invalidQuantity, hq, ht, hv.1, hv.2, Orders.quantityLeZero,
    Bool.not_true, Bool.or_self]

/-- The callback of `dishesIsValid` returns true on an offending item. -/
theorem invalidQuantity_of_offending (item : JsVal) (h : quantityOffending item) :
    Orders.invalidQuantity item = some true := by
  obtain ⟨quantity, hq, hbad⟩ := h
  cases hr : Orders.invalidQuantity item with
  | none => simp [Orders.invalidQuantity, hq] at hr
  | some r =>
    cases r with
    | true => rfl
    | false =>
      obtain ⟨q2, hq2, hpos⟩ := quantity_of_not_invalid item hr
      rw [hq, Option.some.injEq] at hq2
      exact absurd (hq2 ▸ hpos) hbad

/-- The search of `dishesIsValid` stops at the first offending item when the
items before it are acceptable. -/
theorem findIndexThrowing_first_offending (before after : List JsVal) (item : JsVal)
    (hbefore : ∀ x ∈ before, quantityAcceptable x) (hitem : quantityOffending item) :
    findIndexThrowing Orders.invalidQuantity (before ++ item :: after)
      = some (some before.length) := by
  induction before with
  | nil => simp [findIndexThrowing, invalidQuantity_of_offending item hitem]
  | cons x xs ih =>
    have hx := invalidQuantity_of_acceptable x (hbefore x (by simp))
    have hxs := ih (fun y hy => hbefore y (by simp [hy]))
    simp [findIndexThrowing, hx, hxs]

/-- The search of `dishesIsValid` finds nothing when every item is acceptable. -/
theorem findIndexThrowing_all_acceptable (items : List JsVal)
    (h : ∀ x ∈ items, quantityAcceptable x) :
    findIndexThrowing Orders.invalidQuantity items = some none := by
  induction items with
  | nil => rfl
  | cons x xs ih =>
    have hx := invalidQuantity_of_acceptable x (h x (by simp))
    have hxs := ih (fun y hy => h y (by simp [hy]))
    simp [findIndexThrowing, hx, hxs]

/-! ## Order creation with missing or invalid dishes -/

/-- C16 (counterexample): with truthy deliverTo and mobileNumber, a payload
without `dishes` (not a sequence) is refused with "Order must include a
dishes", and a payload whose deliverTo is the number 5 and whose dishes is
the empty sequence is refused with "Order must include a deliverTo"; neither
message is "Order must include at least one dish". -/
theorem order_create_other_message :
    runChain Orders.createChain (mkRequest orderCreateBodyNoDishes "") none []
      = Step.error 400 "Order must include a dishes" [] ∧
    runChain Orders.createChain
        (mkRequest (orderCreateBodyWith (.num 5) (.arr [])) "") none []
      = Step.error 400 "Order must include a deliverTo" [] ∧
    (JsVal.num 5).truthy = true ∧
    "Order must include a dishes" ≠ "Order must include at least one dish" ∧
    "Order must include a deliverTo" ≠ "Order must include at least one dish" := by
  refine ⟨rfl, rfl, rfl, by decide, by decide⟩

/-- C16 (amended): for an order create payload whose deliverTo and
mobileNumber are truthy with a truthy length: when dishes is absent or falsy
the chain fails with 400 "Order must include a dishes"; when dishes is an
empty sequence or a truthy value that is not a sequence it fails with 400
"Order must include at least one dish"; when dishes is a sequence whose
first offending item (quantity missing, not an integer, or not greater than
0) is not null and stands at index i, it fails with 400 "Dish i must have a
quantity that is an integer greater than 0".  The collection is unchanged in
every case. -/
theorem order_create_dishes_rejected (req : Request) (orders : List Order)
    (deliverTo mobileNumber dishes : JsVal)
    (hdeliverTo : bodyField req.body "deliverTo" = some deliverTo)
    (hmobile : bodyField req.body "mobileNumber" = some mobileNumber)
    (hdishes : bodyField req.body "dishes" = some dishes)
    (hd : deliverTo.truthy = true ∧ lengthTruthy deliverTo = true)
    (hm : mobileNumber.truthy = true ∧ lengthTruthy mobileNumber = true) :
    (dishes.truthy = false →
      runChain Orders.createChain req none orders
        = Step.error 400 "Order must include a dishes" orders) ∧
    (dishes.truthy = true → (dishes = JsVal.arr [] ∨ dishes.isArray = false) →
      runChain Orders.createChain req none orders
        = Step.error 400 "Order must include at least one dish" orders) ∧
    (∀ (before : List JsVal) (item : JsVal) (after : List JsVal),
      dishes = JsVal.arr (before ++ item :: after) →
      (∀ x ∈ before, quantityAcceptable x) → quantityOffending item →
      runChain Orders.createChain req none orders
        = Step.error 400
            ("Dish " ++ toString before.length ++
              " must have a quantity that is an integer greater than 0") orders) := by
  have s1 : Orders.bodyDataHas "deliverTo" req none orders = Step.next none orders := by
    rw [order_bodyDataHas_eval _ _ _ _ _ hdeliverTo, if_pos hd.1]
  have s2 : Orders.bodyDataHas "mobileNumber" req none orders = Step.next none orders := by
    rw [order_bodyDataHas_eval _ _ _ _ _ hmobile, if_pos hm.1]
  have s4 : Orders.deliverToIsValid req none orders = Step.next none orders := by
    rw [order_deliverToIsValid_eval _ _ _ _ hdeliverTo hd.1, if_pos hd.2]
  have s5 : Orders.mobileNumberIsValid req none orders = Step.next none orders := by
    rw [order_mobileNumberIsValid_eval _ _ _ _ hmobile hm.1, if_pos hm.2]
  have hrun : ∀ (message : String), dishes.truthy = true →
      Orders.dishesIsValid req none orders = Step.error 400 message orders →
      runChain Orders.createChain req none orders = Step.error 400 message orders := by
    intro message ht h6
    have s3 : Orders.bodyDataHas "dishes" req none orders = Step.next none orders := by
      rw [order_bodyDataHas_eval _ _ _ _ _ hdishes, if_pos ht]
    rw [Orders.createChain, runChain_cons_next s1, runChain_cons_next s2,
      runChain_cons_next s3, runChain_cons_next s4, runChain_cons_next s5]
    exact runChain_cons_error h6
  refine ⟨?_, ?_, ?_⟩
  · intro hf
    rw [Orders.createChain, runChain_cons_next s1, runChain_cons_next s2]
    exact runChain_cons_error
      (by rw [order_bodyDataHas_eval _ _ _ _ _ hdishes, if_neg (by simp [hf])]; rfl)
  · intro ht hshape
    apply hrun _ ht
    rcases hshape with rfl | hna
    · simp [Orders.dishesIsValid, hdishes, JsVal.truthy]
    · cases dishes <;> simp [JsVal.isArray] at hna <;> simp [Orders.dishesIsValid, hdishes]
  · intro before item after hshape hbefore hitem
    subst hshape
    apply hrun _ rfl
    have hlen : (JsVal.num ((before ++ item :: after).length : ℕ)).truthy = true := by
      simp only [JsVal.truthy, decide_eq_true_eq]
      have : (before ++ item :: after).length ≠ 0 := by simp
      exact_mod_cast this
    simp only [Orders.dishesIsValid, hdishes, hlen, if_true,
      findIndexThrowing_first_offending before after item hbefore hitem]

/-- C16 (amended) at a concrete request: the second line item has quantity
0, and the message names index 1. -/
theorem order_create_dishes_rejected_witness :
    runChain Orders.createChain
        (mkRequest (orderCreateBodyWith (.str "1600 Pennsylvania Avenue")
          (.arr [lineItem "d1" 1, lineItem "d2" 0])) "") none [sampleOrder "1" "pending"]
      = Step.error 400
          ("Dish " ++ toString [lineItem "d1" 1].length ++
            " must have a quantity that is an integer greater than 0")
          [sampleOrder "1" "pending"] :=
  (order_create_dishes_rejected
    (mkRequest (orderCreateBodyWith (.str "1600 Pennsylvania Avenue")
      (.arr [lineItem "d1" 1, lineItem "d2" 0])) "") [sampleOrder "1" "pending"]
    (.str "1600 Pennsylvania Avenue") (.str "(202) 456-1111")
    (.arr [lineItem "d1" 1, lineItem "d2" 0]) rfl rfl rfl
    ⟨rfl, lengthTruthy_str _ (by decide)⟩ ⟨rfl, lengthTruthy_str _ (by decide)⟩).2.2
    [lineItem "d1" 1] (lineItem "d2" 0) [] rfl
    (by
      intro x hx
      rw [List.mem_singleton] at hx
      subst hx
      exact ⟨JsVal.num (1 : ℕ), rfl, 1, by decide, rfl⟩)
    ⟨JsVal.num (0 : ℕ), rfl, by
      rintro ⟨n, hn, h⟩
      have hq : ((0 : ℕ) : ℚ) = (n : ℚ) := JsVal.num.inj h
      have : (0 : ℕ) = n := by exact_mod_cast hq
      omega⟩

/-! ## Reads leave the collections alone -/

/-- C17: the list handlers and the read chains of both resources leave the
collection exactly as it was, whether the read succeeds or fails with 404,
and the same list or read run again on the collection it left gives the same
answer. -/
theorem get_chains_do_not_mutate (req : Request) (dishes : List Dish) (orders : List Order) :
    runChain [Dishes.list] req none dishes = Step.respond 200 (Body.list dishes) dishes ∧
    runChain [Orders.list] req none orders = Step.respond 200 (Body.list orders) orders ∧
    (runChain Dishes.readChain req none dishes).coll = dishes ∧
    (runChain Orders.readChain req none orders).coll = orders ∧
    runChain [Dishes.list] req none (runChain [Dishes.list] req none dishes).coll
      = runChain [Dishes.list] req none dishes ∧
    runChain [Orders.list] req none (runChain [Orders.list] req none orders).coll
      = runChain [Orders.list] req none orders ∧
    runChain Dishes.readChain req none (runChain Dishes.readChain req none dishes).coll
      = runChain Dishes.readChain req none dishes ∧
    runChain Orders.readChain req none (runChain Orders.readChain req none orders).coll
      = runChain Orders.readChain req none orders := by
  have hd : (runChain Dishes.readChain req none dishes).coll = dishes := by
    rw [dish_readChain_eq]
    split <;> rfl
  have ho : (runChain Orders.readChain req none orders).coll = orders := by
    rw [order_readChain_eq]
    split <;> rfl
  refine ⟨rfl, rfl, hd, ho, rfl, rfl, ?_, ?_⟩
  · rw [hd]
  · rw [ho]

/-! ## Payloads that make a stage throw -/

/-- C18 (code at the failing inputs): an order creation whose `dishes` is
`[null]` makes `dishesIsValid` throw when it reads `quantity` of `null`, and
a dish creation whose body is `{ data: null }` makes the first presence
stage throw when it reads a property of `null`; neither chain ends in a
response or in a `{ status, message }` failure. -/
theorem malformed_payload_throws :
    runChain Orders.createChain
        (mkRequest (orderCreateBodyWith (.str "1600 Pennsylvania Avenue") (.arr [.null])) "")
        none [sampleOrder "1" "pending"]
      = Step.throw [sampleOrder "1" "pending"] ∧
    runChain Dishes.createChain (mkRequest (.obj [("data", .null)]) "") none
        [sampleDish "1" 10]
      = Step.throw [sampleDish "1" 10] := by
  exact ⟨rfl, rfl⟩

/-! ## The order update chain -/

/-- A chain that starts with checks either runs them all, each calling
`next()`, and continues with the rest on the same `res.locals` and
collection, or stops at one of them with an error or an exception. -/
theorem runChain_append_checks {ρ : Type} (ms rest : List (Middleware ρ))
    (hms : ∀ m ∈ ms, Check m) (req : Request) (locals : Option Nat) (coll : List ρ) :
    (runChain (ms ++ rest) req locals coll = runChain rest req locals coll ∧
        ∀ m ∈ ms, m req locals coll = Step.next locals coll) ∨
    (∃ status message, runChain (ms ++ rest) req locals coll = Step.error status message coll) ∨
    runChain (ms ++ rest) req locals coll = Step.throw coll := by
  induction ms with
  | nil => exact Or.inl ⟨rfl, by simp⟩
  | cons m ms ih =>
    have hrest : ∀ m1 ∈ ms, Check m1 := fun m1 h1 => hms m1 (List.mem_cons_of_mem m h1)
    rcases hms m (List.mem_cons_self m ms) req locals coll with h1 | ⟨st, msg, h1⟩ | h1
    · rcases ih hrest with ⟨h2, hall⟩ | ⟨st, msg, h2⟩ | h2
      · refine Or.inl ⟨?_, ?_⟩
        · rw [List.cons_append, runChain_cons_next h1]
          exact h2
        · intro m1 hm1
          rcases List.mem_cons.mp hm1 with rfl | hm1
          · exact h1
          · exact hall m1 hm1
      · exact Or.inr (Or.inl ⟨st, msg, by rw [List.cons_append, runChain_cons_next h1]; exact h2⟩)
      · exact Or.inr (Or.inr (by rw [List.cons_append, runChain_cons_next h1]; exact h2))
    · exact Or.inr (Or.inl ⟨st, msg, by rw [List.cons_append]; exact runChain_cons_error h1⟩)
    · exact Or.inr (Or.inr (by rw [List.cons_append]; exact runChain_cons_throw h1))

/-- Stages run in declaration order and the first failure wins: when the
stages before `m` have all called `next()` and `m` fails, the chain ends with
the failure of `m`, whatever the later stages would do. -/
theorem runChain_first_failure {ρ : Type} (before after : List (Middleware ρ))
    (m : Middleware ρ) (req : Request) (locals locals1 : Option Nat)
    (coll coll1 coll2 : List ρ) (status : Nat) (message : String)
    (hbefore : runChain before req locals coll = Step.next locals1 coll1)
    (hm : m req locals1 coll1 = Step.error status message coll2) :
    runChain (before ++ m :: after) req locals coll = Step.error status message coll2 := by
  induction before generalizing locals coll with
  | nil =>
    simp only [runChain, Step.next.injEq] at hbefore
    obtain ⟨rfl, rfl⟩ := hbefore
    exact runChain_cons_error hm
  | cons b bs ih =>
    cases hb : b req locals coll with
    | next l2 c2 =>
      rw [runChain_cons_next hb] at hbefore
      rw [List.cons_append, runChain_cons_next hb]
      exact ih l2 c2 hbefore
    | error st msg c2 =>
      rw [runChain_cons_error hb] at hbefore
      cases hbefore
    | respond st body c2 =>
      rw [runChain_cons_respond hb] at hbefore
      cases hbefore
    | throw c2 =>
      rw [runChain_cons_throw hb] at hbefore
      cases hbefore

/-- The middleware `Orders.bodyDataHas` is a check. -/
theorem order_bodyDataHas_check (propertyName : String) :
    Check (Orders.bodyDataHas propertyName) := by
  intro req locals coll
  unfold Orders.bodyDataHas
  split
  · exact Or.inr (Or.inr rfl)
  · split
    · exact Or.inl rfl
    · exact Or.inr (Or.inl ⟨_, _, rfl⟩)

/-- The middleware `Orders.deliverToIsValid` is a check. -/
theorem order_deliverToIsValid_check : Check Orders.deliverToIsValid := by
  intro req locals coll
  unfold Orders.deliverToIsValid
  split
  · exact Or.inr (Or.inr rfl)
  · split
    · exact Or.inr (Or.inr rfl)
    · split
      · exact Or.inl rfl
      · exact Or.inr (Or.inl ⟨_, _, rfl⟩)

/-- The middleware `Orders.mobileNumberIsValid` is a check. -/
theorem order_mobileNumberIsValid_check : Check Orders.mobileNumberIsValid := by
  intro req locals coll
  unfold Orders.mobileNumberIsValid
  split
  · exact Or.inr (Or.inr rfl)
  · split
    · exact Or.inr (Or.inr rfl)
    · split
      · exact Or.inl rfl
      · exact Or.inr (Or.inl ⟨_, _, rfl⟩)

/-- The middleware `Orders.dishesIsValid` is a check. -/
theorem order_dishesIsValid_check : Check Orders.dishesIsValid := by
  intro req locals coll
  unfold Orders.dishesIsValid
  split
  · exact Or.inr (Or.inr rfl)
  · split
    · split
      · split
        · exact Or.inr (Or.inr rfl)
        · exact Or.inr (Or.inl ⟨_, _, rfl⟩)
        · exact Or.inl rfl
      · exact Or.inr (Or.inl ⟨_, _, rfl⟩)
    · exact Or.inr (Or.inl ⟨_, _, rfl⟩)

/-- The middleware `Orders.statusIsValid` is a check. -/
theorem order_statusIsValid_check : Check Orders.statusIsValid := by
  intro req locals coll
  unfold Orders.statusIsValid
  split
  · exact Or.inr (Or.inr rfl)
  · split
    · exact Or.inl rfl
    · exact Or.inr (Or.inl ⟨_, _, rfl⟩)

/-- The checks of the order update chain that follow `orderExists`. -/
theorem order_update_checks :
    ∀ m ∈ [Orders.bodyDataHas "deliverTo", Orders.bodyDataHas "mobileNumber",
        Orders.bodyDataHas "status", Orders.bodyDataHas "dishes", Orders.deliverToIsValid,
        Orders.mobileNumberIsValid, Orders.dishesIsValid, Orders.statusIsValid], Check m := by
  intro m hm
  simp only [List.mem_cons, List.mem_singleton, List.not_mem_nil, or_false] at hm
  rcases hm with rfl | rfl | rfl | rfl | rfl | rfl | rfl | rfl
  · exact order_bodyDataHas_check _
  · exact order_bodyDataHas_check _
  · exact order_bodyDataHas_check _
  · exact order_bodyDataHas_check _
  · exact order_deliverToIsValid_check
  · exact order_mobileNumberIsValid_check
  · exact order_dishesIsValid_check
  · exact order_statusIsValid_check

/-- A presence stage that calls `next()` has read a truthy value. -/
theorem order_bodyDataHas_next {req : Request} {propertyName : String}
    {l1 l2 : Option Nat} {coll : List Order}
    (h : Orders.bodyDataHas propertyName req l1 coll = Step.next l2 coll) :
    ∃ v, bodyField req.body propertyName = some v ∧ v.truthy = true := by
  unfold Orders.bodyDataHas at h
  cases hb : bodyField req.body propertyName with
  | none => simp [hb] at h
  | some v =>
    refine ⟨v, rfl, ?_⟩
    by_cases hv : v.truthy = true
    · exact hv
    · simp [hb, hv] at h

/-- When `deliverToIsValid` calls `next()`, the deliverTo read from the body
has a truthy length. -/
theorem order_deliverToIsValid_next {req : Request} {l1 l2 : Option Nat}
    {coll : List Order} (h : Orders.deliverToIsValid req l1 coll = Step.next l2 coll) :
    ∃ v, bodyField req.body "deliverTo" = some v ∧ lengthTruthy v = true := by
  unfold Orders.deliverToIsValid at h
  cases hb : bodyField req.body "deliverTo" with
  | none => simp [hb] at h
  | some v =>
    refine ⟨v, rfl, ?_⟩
    cases hlen : getProp v "length" with
    | none => simp [hb, hlen] at h
    | some len =>
      by_cases hl : len.truthy = true
      · simp [lengthTruthy, hlen, hl]
      · simp [hb, hlen, hl] at h

/-- When `mobileNumberIsValid` calls `next()`, the mobileNumber read from the
body has a truthy length. -/
theorem order_mobileNumberIsValid_next {req : Request} {l1 l2 : Option Nat}
    {coll : List Order} (h : Orders.mobileNumberIsValid req l1 coll = Step.next l2 coll) :
    ∃ v, bodyField req.body "mobileNumber" = some v ∧ lengthTruthy v = true := by
  unfold Orders.mobileNumberIsValid at h
  cases hb : bodyField req.body "mobileNumber" with
  | none => simp [hb] at h
  | some v =>
    refine ⟨v, rfl, ?_⟩
    cases hlen : getProp v "length" with
    | none => simp [hb, hlen] at h
    | some len =>
      by_cases hl : len.truthy = true
      · simp [lengthTruthy, hlen, hl]
      · simp [hb, hlen, hl] at h

/-- One of the four order states is a truthy value. -/
theorem truthy_of_statusInEnum (status : JsVal) (h : statusInEnum status) :
    status.truthy = true := by
  rcases h with rfl | rfl | rfl | rfl <;> rfl

/-- On a valid order payload, when `orderExists` finds the order at position
`i`, every validator of the order update chain calls `next()`: the chain does
what `update` does with that order in `res.locals`. -/
theorem order_update_validators_pass (req : Request) (orders : List Order) (i : Nat)
    (deliverTo mobileNumber status dishes : JsVal)
    (hi : findIndex (fun o : Order => decide (o.id = req.param)) orders = some i)
    (hdeliverTo : bodyField req.body "deliverTo" = some deliverTo)
    (hmobile : bodyField req.body "mobileNumber" = some mobileNumber)
    (hstatus : bodyField req.body "status" = some status)
    (hdishes : bodyField req.body "dishes" = some dishes)
    (hvalid : orderPayloadValid deliverTo mobileNumber status dishes) :
    runChain Orders.updateChain req none orders = Orders.update req (some i) orders := by
  obtain ⟨⟨hd, hdl⟩, ⟨hm, hml⟩, ⟨items, rfl, hne, hall⟩, henum⟩ := hvalid
  have s0 : Orders.orderExists req none orders = Step.next (some i) orders := by
    simp only [Orders.orderExists, hi]
  have s7 : Orders.dishesIsValid req (some i) orders = Step.next (some i) orders := by
    have hlen : (JsVal.num (items.length : ℕ)).truthy = true := by
      simp only [JsVal.truthy, decide_eq_true_eq]
      have : items.length ≠ 0 := by
        intro h0
        exact hne (List.length_eq_zero.mp h0)
      exact_mod_cast this
    simp only [Orders.dishesIsValid, hdishes, hlen, if_true,
      findIndexThrowing_all_acceptable items hall]
  have s8 : Orders.statusIsValid req (some i) orders = Step.next (some i) orders := by
    rcases henum with rfl | rfl | rfl | rfl <;>
      simp [Orders.statusIsValid, hstatus, JsVal.strictEqStr]
  have s1 : Orders.bodyDataHas "deliverTo" req (some i) orders
      = Step.next (some i) orders := by
    rw [order_bodyDataHas_eval _ _ _ _ _ hdeliverTo, if_pos hd]
  have s2 : Orders.bodyDataHas "mobileNumber" req (some i) orders
      = Step.next (some i) orders := by
    rw [order_bodyDataHas_eval _ _ _ _ _ hmobile, if_pos hm]
  have s3 : Orders.bodyDataHas "status" req (some i) orders
      = Step.next (some i) orders := by
    rw [order_bodyDataHas_eval _ _ _ _ _ hstatus,
      if_pos (truthy_of_statusInEnum status henum)]
  have s4 : Orders.bodyDataHas "dishes" req (some i) orders
      = Step.next (some i) orders := by
    rw [order_bodyDataHas_eval _ _ _ _ _ hdishes]
    exact if_pos rfl
  have s5 : Orders.deliverToIsValid req (some i) orders = Step.next (some i) orders := by
    rw [order_deliverToIsValid_eval _ _ _ _ hdeliverTo hd, if_pos hdl]
  have s6 : Orders.mobileNumberIsValid req (some i) orders = Step.next (some i) orders := by
    rw [order_mobileNumberIsValid_eval _ _ _ _ hmobile hm, if_pos hml]
  rw [Orders.updateChain, runChain_cons_next s0, runChain_cons_next s1,
    runChain_cons_next s2, runChain_cons_next s3, runChain_cons_next s4,
    runChain_cons_next s5, runChain_cons_next s6, runChain_cons_next s7,
    runChain_cons_next s8, runChain_singleton]

/-- What `update` does when the payload can be read and `res.locals` holds
the order at position `i`: the id mismatch is tested first, then the
"delivered" guard, then the four fields are overwritten. -/
theorem order_update_eval (req : Request) (orders : List Order) (i : Nat) (order : Order)
    (id deliverTo mobileNumber status dishes : JsVal)
    (hreads : orderPayloadReads req.body id deliverTo mobileNumber status dishes)
    (hget : orders.get? i = some order) :
    Orders.update req (some i) orders =
      if (id.truthy && !id.strictEqStr req.param) = true then
        match templateString req.numberToString id with
        | none => Step.throw orders
        | some rendered =>
          Step.error 400
            ("Order id does not match route id. Dish: " ++ rendered ++
              ", Route: " ++ req.param) orders
      else if status.strictEqStr "delivered" = true then
        Step.error 400 "A delivered order cannot be changed" orders
      else
        Step.respond 200
          (Body.record { id := order.id, deliverTo := deliverTo,
                         mobileNumber := mobileNumber, status := status, dishes := dishes })
          (modifyAt (fun _ => { id := order.id, deliverTo := deliverTo,
                                mobileNumber := mobileNumber, status := status,
                                dishes := dishes }) i orders) := by
  obtain ⟨hid, hdeliverTo, hmobile, hstatus, hdishes⟩ := hreads
  simp only [Orders.update, hid, hdeliverTo, hmobile, hstatus, hdishes, hget]

/-- When one field of the payload can be read, every field can: the payload
is neither `null` nor unreadable. -/
theorem bodyField_readable (body : JsVal) (k k1 : String) (v : JsVal)
    (h : bodyField body k = some v) : ∃ w, bodyField body k1 = some w := by
  unfold bodyField at h ⊢
  cases hd : bodyData body with
  | none => simp [hd] at h
  | some d =>
    simp only [hd] at h ⊢
    cases d <;> simp only [getProp] at h ⊢ <;>
      first
        | exact ⟨_, rfl⟩
        | cases h
        | (split <;> exact ⟨_, rfl⟩)

/-- The order update chain fails with 404 when no order has the route id,
whatever the payload. -/
theorem order_update_not_found (req : Request) (orders : List Order)
    (h : ¬ ∃ o ∈ orders, o.id = req.param) :
    runChain Orders.updateChain req none orders
      = Step.error 404 ("Order id not found: " ++ req.param) orders := by
  cases hfi : findIndex (fun o : Order => decide (o.id = req.param)) orders with
  | none =>
    rw [Orders.updateChain]
    exact runChain_cons_error (by simp only [Orders.orderExists, hfi])
  | some i =>
    obtain ⟨a, ha, -, hpa⟩ := findIndex_eq_some _ _ _ hfi
    exact absurd ⟨a, List.get?_mem ha, by simpa using hpa⟩ h

/-- When the order update chain answers the request, the order was found,
the payload was read and met the acceptance condition, and the answer is 200
with the found order overwritten in place. -/
theorem order_update_success (req : Request) (orders : List Order) (status0 : Nat)
    (body : Body Order) (coll : List Order)
    (h : runChain Orders.updateChain req none orders = Step.respond status0 body coll) :
    ∃ (i : Nat) (order : Order) (id deliverTo mobileNumber status dishes : JsVal),
      findIndex (fun o : Order => decide (o.id = req.param)) orders = some i ∧
      orders.get? i = some order ∧
      orderPayloadReads req.body id deliverTo mobileNumber status dishes ∧
      orderUpdateAccepted req.param id deliverTo mobileNumber status dishes ∧
      status0 = 200 ∧
      body = Body.record { id := order.id, deliverTo := deliverTo,
                           mobileNumber := mobileNumber, status := status,
                           dishes := dishes } ∧
      coll = modifyAt (fun _ => { id := order.id, deliverTo := deliverTo,
                                  mobileNumber := mobileNumber, status := status,
                                  dishes := dishes }) i orders := by
  cases hfi : findIndex (fun o : Order => decide (o.id = req.param)) orders with
  | none =>
    have herr : runChain Orders.updateChain req none orders
        = Step.error 404 ("Order id not found: " ++ req.param) orders := by
      rw [Orders.updateChain]
      exact runChain_cons_error (by simp only [Orders.orderExists, hfi])
    rw [herr] at h
    cases h
  | some i =>
    obtain ⟨order, hget, -, -⟩ := findIndex_eq_some _ _ _ hfi
    have s0 : Orders.orderExists req none orders = Step.next (some i) orders := by
      simp only [Orders.orderExists, hfi]
    rw [Orders.updateChain, runChain_cons_next s0] at h
    rcases runChain_append_checks _ [Orders.update] order_update_checks req (some i) orders
      with ⟨hrun, hall⟩ | ⟨st, msg, hrun⟩ | hrun
    · have hupd : Orders.update req (some i) orders = Step.respond status0 body coll := by
        rw [← runChain_singleton Orders.update, ← hrun]
        exact h
      obtain ⟨deliverTo, hdeliverTo, hd⟩ :=
        order_bodyDataHas_next (hall (Orders.bodyDataHas "deliverTo") (by simp))
      obtain ⟨mobileNumber, hmobile, hm⟩ :=
        order_bodyDataHas_next (hall (Orders.bodyDataHas "mobileNumber") (by simp))
      obtain ⟨d2, hd2, hdl⟩ := order_deliverToIsValid_next (hall Orders.deliverToIsValid (by simp))
      obtain ⟨m2, hm2, hml⟩ :=
        order_mobileNumberIsValid_next (hall Orders.mobileNumberIsValid (by simp))
      obtain ⟨dishes, hdishes, hwf⟩ := order_dishesIsValid_next (hall Orders.dishesIsValid (by simp))
      obtain ⟨status, hstatus, henum⟩ :=
        order_statusIsValid_next (hall Orders.statusIsValid (by simp))
      obtain ⟨id, hid⟩ := bodyField_readable req.body "deliverTo" "id" deliverTo hdeliverTo
      rw [hdeliverTo, Option.some.injEq] at hd2
      rw [hmobile, Option.some.injEq] at hm2
      subst hd2 hm2
      have hreads : orderPayloadReads req.body id deliverTo mobileNumber status dishes :=
        ⟨hid, hdeliverTo, hmobile, hstatus, hdishes⟩
      rw [order_update_eval req orders i order id deliverTo mobileNumber status dishes
        hreads hget] at hupd
      by_cases hc1 : (id.truthy && !id.strictEqStr req.param) = true
      · rw [if_pos hc1] at hupd
        split at hupd <;> cases hupd
      · rw [if_neg hc1] at hupd
        by_cases hc2 : status.strictEqStr "delivered" = true
        · rw [if_pos hc2] at hupd
          cases hupd
        · rw [if_neg hc2] at hupd
          simp only [Step.respond.injEq] at hupd
          obtain ⟨hs0, hbody, hcoll⟩ := hupd
          have hidc : id.truthy = false ∨ id = JsVal.str req.param := by
            cases ht : id.truthy with
            | false => exact Or.inl rfl
            | true =>
              right
              apply (strictEqStr_iff id req.param).mp
              cases hs : id.strictEqStr req.param with
              | true => rfl
              | false => simp [ht, hs] at hc1
          have hthree : status = JsVal.str "pending" ∨ status = JsVal.str "preparing" ∨
              status = JsVal.str "out-for-delivery" := by
            rcases henum with h1 | h1 | h1 | h1
            · exact Or.inl h1
            · exact Or.inr (Or.inl h1)
            · exact Or.inr (Or.inr h1)
            · exact absurd ((strictEqStr_iff status "delivered").mpr h1) hc2
          exact ⟨i, order, id, deliverTo, mobileNumber, status, dishes, rfl, hget, hreads,
            ⟨⟨hd, hdl⟩, ⟨hm, hml⟩, hwf, hthree, hidc⟩, hs0.symm, hbody.symm, hcoll.symm⟩
    · have h2 : Step.error st msg orders = Step.respond status0 body coll := by
        rw [← hrun]
        exact h
      cases h2
    · have h2 : Step.throw orders = Step.respond status0 body coll := by
        rw [← hrun]
        exact h
      cases h2

/-- An accepted payload is a valid one. -/
theorem orderPayloadValid_of_accepted (param : String)
    (id deliverTo mobileNumber status dishes : JsVal)
    (h : orderUpdateAccepted param id deliverTo mobileNumber status dishes) :
    orderPayloadValid deliverTo mobileNumber status dishes := by
  obtain ⟨hd, hm, hwf, hthree, -⟩ := h
  refine ⟨hd, hm, hwf, ?_⟩
  rcases hthree with h1 | h1 | h1
  · exact Or.inl h1
  · exact Or.inr (Or.inl h1)
  · exact Or.inr (Or.inr (Or.inl h1))

/-- On an accepted payload for an existing order, the order update chain
answers 200 with the found order (the first with the route id) overwritten
in place; the other positions and the length of the collection are
unchanged. -/
theorem order_update_accepted_run (req : Request) (orders : List Order)
    (id deliverTo mobileNumber status dishes : JsVal)
    (hex : ∃ o ∈ orders, o.id = req.param)
    (hreads : orderPayloadReads req.body id deliverTo mobileNumber status dishes)
    (hacc : orderUpdateAccepted req.param id deliverTo mobileNumber status dishes) :
    ∃ (i : Nat) (order : Order) (coll : List Order),
      orders.find? (fun o => decide (o.id = req.param)) = some order ∧
      orders.get? i = some order ∧
      runChain Orders.updateChain req none orders
        = Step.respond 200
            (Body.record { id := order.id, deliverTo := deliverTo,
                           mobileNumber := mobileNumber, status := status,
                           dishes := dishes }) coll ∧
      coll.length = orders.length ∧
      coll.get? i = some { id := order.id, deliverTo := deliverTo,
                           mobileNumber := mobileNumber, status := status,
                           dishes := dishes } ∧
      ∀ j, j ≠ i → coll.get? j = orders.get? j := by
  obtain ⟨i, hi⟩ := findIndex_of_exists (fun o : Order => decide (o.id = req.param))
    orders (by obtain ⟨o, ho, hoid⟩ := hex; exact ⟨o, ho, by simp [hoid]⟩)
  obtain ⟨order, hget, hfind, -⟩ := findIndex_eq_some _ _ _ hi
  have hvalid := orderPayloadValid_of_accepted _ _ _ _ _ _ hacc
  obtain ⟨-, -, -, hthree, hidc⟩ := hacc
  have hc1 : ¬ (id.truthy && !id.strictEqStr req.param) = true := by
    rcases hidc with h | h
    · simp [h]
    · simp [h, JsVal.strictEqStr]
  have hc2 : ¬ status.strictEqStr "delivered" = true := by
    rcases hthree with rfl | rfl | rfl <;> simp [JsVal.strictEqStr]
  refine ⟨i, order,
    modifyAt (fun _ => (⟨order.id, deliverTo, mobileNumber, status, dishes⟩ : Order)) i orders,
    hfind, hget, ?_, length_modifyAt _ _ _, get?_modifyAt_eq _ _ _ _ hget,
    fun j hj => get?_modifyAt_ne _ _ _ _ hj⟩
  rw [order_update_validators_pass req orders i deliverTo mobileNumber status dishes hi
      hreads.2.1 hreads.2.2.1 hreads.2.2.2.1 hreads.2.2.2.2 hvalid,
    order_update_eval req orders i order id deliverTo mobileNumber status dishes hreads hget,
    if_neg hc1, if_neg hc2]

/-- The order update chain answers the request exactly when an order
with the route id exists and the payload reads as values such that deliverTo
and mobileNumber are truthy with a truthy length, dishes is a non-empty
sequence whose every item has a quantity that is an integer greater than 0,
status is one of pending, preparing, out-for-delivery, and id is falsy or
equal to the route id.  It then answers 200 with the found order carrying
the payload's deliverTo, mobileNumber, status and dishes, overwritten in
place.  A missing order gives 404 whatever the payload; on a valid payload
with a mismatching id the id mismatch branch is taken even when the status
is "delivered" (it answers 400 with the mismatch message when the id can be
rendered, and throws when it cannot); and in general the failure of a stage
is the one reported once the stages declared before it have all called
`next()`. -/
theorem order_update_acceptance (req : Request) (orders : List Order) :
    ((∃ status0 body coll,
        runChain Orders.updateChain req none orders = Step.respond status0 body coll) ↔
      ((∃ o ∈ orders, o.id = req.param) ∧
        ∃ id deliverTo mobileNumber status dishes,
          orderPayloadReads req.body id deliverTo mobileNumber status dishes ∧
          orderUpdateAccepted req.param id deliverTo mobileNumber status dishes)) ∧
    (∀ id deliverTo mobileNumber status dishes,
      (∃ o ∈ orders, o.id = req.param) →
      orderPayloadReads req.body id deliverTo mobileNumber status dishes →
      orderUpdateAccepted req.param id deliverTo mobileNumber status dishes →
      ∃ (i : Nat) (order : Order) (coll : List Order),
        orders.find? (fun o => decide (o.id = req.param)) = some order ∧
        orders.get? i = some order ∧
        runChain Orders.updateChain req none orders
          = Step.respond 200
              (Body.record { id := order.id, deliverTo := deliverTo,
                             mobileNumber := mobileNumber, status := status,
                             dishes := dishes }) coll ∧
        coll.length = orders.length ∧
        coll.get? i = some { id := order.id, deliverTo := deliverTo,
                             mobileNumber := mobileNumber, status := status,
                             dishes := dishes } ∧
        ∀ j, j ≠ i → coll.get? j = orders.get? j) ∧
    ((¬ ∃ o ∈ orders, o.id = req.param) →
      runChain Orders.updateChain req none orders
        = Step.error 404 ("Order id not found: " ++ req.param) orders) ∧
    (∀ id deliverTo mobileNumber status dishes,
      (∃ o ∈ orders, o.id = req.param) →
      orderPayloadReads req.body id deliverTo mobileNumber status dishes →
      orderPayloadValid deliverTo mobileNumber status dishes →
      id.truthy = true → id ≠ JsVal.str req.param →
      runChain Orders.updateChain req none orders =
        match templateString req.numberToString id with
        | none => Step.throw orders
        | some rendered =>
          Step.error 400
            ("Order id does not match route id. Dish: " ++ rendered ++
              ", Route: " ++ req.param) orders) ∧
    (∀ (before : List (Middleware Order)) (m : Middleware Order)
        (after : List (Middleware Order)) (locals1 : Option Nat) (coll1 coll2 : List Order)
        (status0 : Nat) (message : String),
      Orders.updateChain = before ++ m :: after →
      runChain before req none orders = Step.next locals1 coll1 →
      m req locals1 coll1 = Step.error status0 message coll2 →
      runChain Orders.updateChain req none orders = Step.error status0 message coll2) := by
  refine ⟨⟨?_, ?_⟩, ?_, order_update_not_found req orders, ?_, ?_⟩
  · rintro ⟨status0, body, coll, h⟩
    obtain ⟨i, order, id, deliverTo, mobileNumber, status, dishes, hi, hget, hreads, hacc,
      -, -, -⟩ := order_update_success req orders status0 body coll h
    obtain ⟨a, ha, -, hpa⟩ := findIndex_eq_some _ _ _ hi
    exact ⟨⟨a, List.get?_mem ha, by simpa using hpa⟩,
      id, deliverTo, mobileNumber, status, dishes, hreads, hacc⟩
  · rintro ⟨hex, id, deliverTo, mobileNumber, status, dishes, hreads, hacc⟩
    obtain ⟨i, order, coll, -, -, hrun, -⟩ :=
      order_update_accepted_run req orders id deliverTo mobileNumber status dishes
        hex hreads hacc
    exact ⟨200, _, coll, hrun⟩
  · intro id deliverTo mobileNumber status dishes hex hreads hacc
    exact order_update_accepted_run req orders id deliverTo mobileNumber status dishes
      hex hreads hacc
  · intro id deliverTo mobileNumber status dishes hex hreads hvalid htruthy hdiff
    obtain ⟨i, hi⟩ := findIndex_of_exists (fun o : Order => decide (o.id = req.param))
      orders (by obtain ⟨o, ho, hoid⟩ := hex; exact ⟨o, ho, by simp [hoid]⟩)
    obtain ⟨order, hget, -, -⟩ := findIndex_eq_some _ _ _ hi
    have hneq : id.strictEqStr req.param = false := by
      cases h : id.strictEqStr req.param with
      | false => rfl
      | true => exact absurd ((strictEqStr_iff id req.param).mp h) hdiff
    rw [order_update_validators_pass req orders i deliverTo mobileNumber status dishes hi
        hreads.2.1 hreads.2.2.1 hreads.2.2.2.1 hreads.2.2.2.2 hvalid,
      order_update_eval req orders i order id deliverTo mobileNumber status dishes hreads hget,
      if_pos (by simp [htruthy, hneq])]
  · intro before m after locals1 coll1 coll2 status0 message hsplit hbefore hm
    rw [hsplit]
    exact runChain_first_failure before after m req none locals1 orders coll1 coll2
      status0 message hbefore hm

/-- The dishes of the sample update payload are well formed. -/
theorem orderUpdateBody_dishesWellFormed : dishesWellFormed (JsVal.arr [lineItem "d2" 2]) :=
  ⟨[lineItem "d2" 2], rfl, by simp, by
    intro item hitem
    rw [List.mem_singleton] at hitem
    subst hitem
    exact ⟨JsVal.num (2 : ℕ), rfl, 2, by decide, rfl⟩⟩

/-- The acceptance condition at a concrete request: `PUT /orders/7` with a
payload of status "preparing" and no id, on a collection holding orders "3"
and "7", is answered. -/
theorem order_update_acceptance_witness :
    ∃ status0 body coll,
      runChain Orders.updateChain (mkRequest (orderUpdateBody "preparing") "7") none
          [sampleOrder "3" "pending", sampleOrder "7" "pending"]
        = Step.respond status0 body coll :=
  (order_update_acceptance (mkRequest (orderUpdateBody "preparing") "7")
    [sampleOrder "3" "pending", sampleOrder "7" "pending"]).1.mpr
    ⟨⟨sampleOrder "7" "pending", by simp, rfl⟩,
      .undefined, .str "1600 Pennsylvania Avenue", .str "(202) 456-1111", .str "preparing",
      .arr [lineItem "d2" 2], ⟨rfl, rfl, rfl, rfl, rfl⟩,
      ⟨⟨rfl, lengthTruthy_str _ (by decide)⟩, ⟨rfl, lengthTruthy_str _ (by decide)⟩,
        orderUpdateBody_dishesWellFormed, Or.inr (Or.inl rfl), Or.inl rfl⟩⟩

/-- C19 (code at the failing input): `PUT /orders/7` on the existing order
"7" with an otherwise valid payload whose id is the object
`{ "toString": 1 }`, truthy and different from the route id, and whose status
is "delivered".  Two conditions fail, the id mismatch first; `update` takes
the id mismatch branch, and its template literal throws while converting the
id to a string, so neither the id mismatch failure nor any other
`{ status, message }` failure is reported.  With the id "9" the same request
is refused with the id mismatch message, before the delivered guard. -/
theorem order_update_id_object_throws :
    runChain Orders.updateChain
        (mkRequest (orderUpdateBodyWithId (.obj [("toString", .num 1)]) "delivered") "7")
        none [sampleOrder "7" "pending"]
      = Step.throw [sampleOrder "7" "pending"] ∧
    runChain Orders.updateChain
        (mkRequest (orderUpdateBodyWithId (.str "9") "delivered") "7")
        none [sampleOrder "7" "pending"]
      = Step.error 400 "Order id does not match route id. Dish: 9, Route: 7"
          [sampleOrder "7" "pending"] := by
  exact ⟨rfl, rfl⟩

/-! ## Update never delivers -/

/-- C20: when the order update chain answers the request, the order it
returns is in the collection and its stored status is one of pending,
preparing, out-for-delivery, hence not "delivered"; and every order of the
resulting collection whose status is "delivered" was already in the
collection before the update. -/
theorem order_update_never_delivers (req : Request) (orders : List Order) (status0 : Nat)
    (body : Body Order) (coll : List Order)
    (h : runChain Orders.updateChain req none orders = Step.respond status0 body coll) :
    ∃ order, body = Body.record order ∧ order ∈ coll ∧
      (order.status = JsVal.str "pending" ∨ order.status = JsVal.str "preparing" ∨
        order.status = JsVal.str "out-for-delivery") ∧
      order.status ≠ JsVal.str "delivered" ∧
      ∀ o ∈ coll, o.status = JsVal.str "delivered" → o ∈ orders := by
  obtain ⟨i, found, id, deliverTo, mobileNumber, status, dishes, -, hget, -, hacc,
    -, hbody, hcoll⟩ := order_update_success req orders status0 body coll h
  obtain ⟨-, -, -, hthree, -⟩ := hacc
  have hnd : status ≠ JsVal.str "delivered" := by
    rcases hthree with rfl | rfl | rfl <;>
      exact fun hs => absurd (JsVal.str.inj hs) (by decide)
  refine ⟨⟨found.id, deliverTo, mobileNumber, status, dishes⟩, hbody, ?_, hthree, hnd, ?_⟩
  · rw [hcoll]
    exact List.get?_mem (get?_modifyAt_eq _ _ _ _ hget)
  · intro o ho hdelivered
    rw [hcoll] at ho
    rcases mem_modifyAt _ _ _ _ ho with ho | ⟨b, -, rfl⟩
    · exact ho
    · exact absurd hdelivered hnd

/-- C20 at a concrete request: `PUT /orders/7` with a payload of status
"out-for-delivery" on a collection holding a delivered order "3" and a
pending order "7". -/
theorem order_update_never_delivers_witness :
    ∃ order,
      Body.record
          { id := "7", deliverTo := .str "1600 Pennsylvania Avenue",
            mobileNumber := .str "(202) 456-1111", status := .str "out-for-delivery",
            dishes := .arr [lineItem "d2" 2] } = Body.record order ∧
      order ∈ [sampleOrder "3" "delivered",
        { id := "7", deliverTo := .str "1600 Pennsylvania Avenue",
          mobileNumber := .str "(202) 456-1111", status := .str "out-for-delivery",
          dishes := .arr [lineItem "d2" 2] }] ∧
      (order.status = JsVal.str "pending" ∨ order.status = JsVal.str "preparing" ∨
        order.status = JsVal.str "out-for-delivery") ∧
      order.status ≠ JsVal.str "delivered" ∧
      ∀ o ∈ [sampleOrder "3" "delivered",
          { id := "7", deliverTo := .str "1600 Pennsylvania Avenue",
            mobileNumber := .str "(202) 456-1111", status := .str "out-for-delivery",
            dishes := .arr [lineItem "d2" 2] }],
        o.status = JsVal.str "delivered" →
          o ∈ [sampleOrder "3" "delivered", sampleOrder "7" "pending"] :=
  order_update_never_delivers (mkRequest (orderUpdateBody "out-for-delivery") "7")
    [sampleOrder "3" "delivered", sampleOrder "7" "pending"] 200 _ _ rfl

end Grubdash
